import Mathlib

/-!
# Verification of the Vite SSR module loader (`ssrModuleLoader.ts`)

This file is a shallow embedding, in Lean 4, of the server-side module
instantiation engine in `packages/vite/src/node/ssr/ssrModuleLoader.ts`:
the functions `ssrLoadModule`, `instantiateModule`, `ssrImport`,
`ssrDynamicImport`, `ssrExportAll` and `nodeRequire`, together with the
process-wide tables `pendingModules` and `pendingImports` and the module
records of the module graph.

Modelling conventions:

* JavaScript objects that serve as module namespaces live in an explicit
  heap (`LoaderState.heap`); object identity is a heap index, mutation is
  functional update of the state.
* External (host-`require`d) modules live in a second heap
  (`LoaderState.rawHeap`).  The `Proxy` produced by `nodeRequire` is the
  value `Value.proxyV`, which captures the raw-module index and the
  `defaultExport` value computed at require time, exactly like the source.
* The executable content of a transformed module (the `code` string a
  transform produces) is represented as a list of `Action`s, one per
  statement shape that the SSR transform emits (see the transform's test
  snapshots: an `__esModule` marker definition, `await __vite_ssr_import__`
  statements, export definitions via `Object.defineProperty` getters,
  plain export assignments, `__vite_ssr_exportAll__` calls, and code that
  throws).
* The event loop is modelled sequentially: one top-level load runs at a
  time and every `await` of a dependency load runs that load to completion
  before resuming.  Awaiting a promise that is still in flight lower on the
  *current* chain (an entry of `pendingModules` in this sequential model)
  can never be fulfilled — it is a circular wait — and is reported as
  `Err.deadlock`.  Same-tick concurrency of `ssrLoadModule` itself (the
  synchronous segment before any suspension) is modelled separately by
  `CoordState` / `ssrLoadModuleSyncPhase`.
* Recursion is fuel-indexed; `Err.outOfFuel` marks exhaustion.  Failing a
  proof because fuel ran out is never treated as evidence about the code.
-/

set_option maxHeartbeats 1000000

namespace ViteSSR

/-! ## Association-list helpers (JavaScript `Map` / own-property tables) -/

/-- Lookup in an association list keyed by strings (a JS `Map.get`). -/
def alookup {α : Type} : List (String × α) → String → Option α
  | [], _ => none
  | (k, v) :: rest, key => if k = key then some v else alookup rest key

/-- Replace the binding for `key` (first occurrence) or append a new one,
preserving insertion order — `Map.set` / property insertion order. -/
def aset {α : Type} : List (String × α) → String → α → List (String × α)
  | [], key, v => [(key, v)]
  | (k, w) :: rest, key, v =>
      if k = key then (k, v) :: rest else (k, w) :: aset rest key v

/-- Remove the binding for `key` (first occurrence) — `Map.delete`. -/
def aerase {α : Type} : List (String × α) → String → List (String × α)
  | [], _ => []
  | (k, w) :: rest, key => if k = key then rest else (k, w) :: aerase rest key

/-- Update the value bound to `key` in place, if present. -/
def aupdate {α : Type} (f : α → α) : List (String × α) → String → List (String × α)
  | [], _ => []
  | (k, w) :: rest, key =>
      if k = key then (k, f w) :: rest else (k, w) :: aupdate f rest key

/-- Membership of a string in a list of strings, as a Bool
(`array.includes` / presence among `Map` keys). -/
def selem : List String → String → Bool
  | [], _ => false
  | x :: rest, u => if x = u then true else selem rest u

/-- Remove the first occurrence of a string
(`array.splice(array.indexOf(x), 1)`). -/
def serase : List String → String → List String
  | [], _ => []
  | x :: rest, u => if x = u then rest else x :: serase rest u

/-! ## Values, namespace objects, raw modules -/

/-- A JavaScript value as far as the loader observes it.  `nsRef` is a
reference to a namespace object in the loader heap, `rawRef` a reference
to an external (host-required) module object, and `proxyV` the interop
`Proxy` built by `nodeRequire` (raw-module index plus the `defaultExport`
value captured when the proxy was created). -/
inductive Value : Type
  | undefV : Value
  | boolV : Bool → Value
  | intV : Int → Value
  | strV : String → Value
  | nsRef : Nat → Value
  | rawRef : Nat → Value
  | proxyV : Nat → Value → Value
deriving Repr, DecidableEq

/-- JavaScript truthiness, for the values the loader can branch on. -/
def truthy : Value → Bool
  | .undefV => false
  | .boolV b => b
  | .intV n => n != 0
  | .strV s => s ≠ ""
  | .nsRef _ => true
  | .rawRef _ => true
  | .proxyV _ _ => true

/-- What a property of a namespace object holds: either a data slot or a
late-binding accessor `get(){ return sourceModule[key] }` as installed by
`ssrExportAll` and by re-export statements. -/
inductive PropVal : Type
  | dataVal : Value → PropVal
  | getterTo : Value → String → PropVal
deriving Repr, DecidableEq

/-- One own property of a namespace object. -/
structure NsProp : Type where
  name : String
  val : PropVal
  enumerable : Bool
deriving Repr, DecidableEq

/-- A namespace object: own properties in insertion order plus the
`Object.freeze` flag.  (The `[Symbol.toStringTag]: 'Module'` slot is
symbol-keyed, invisible to `for (const key in …)` and to property reads by
string name, and is not modelled.) -/
structure NsObj : Type where
  props : List NsProp
  frozen : Bool
deriving Repr, DecidableEq

instance : Inhabited NsObj := ⟨⟨[], false⟩⟩

/-- An external module's raw exports: a plain object with enumerable
string-keyed properties. -/
structure RawObj : Type where
  props : List (String × Value)
deriving Repr, DecidableEq

instance : Inhabited RawObj := ⟨⟨[]⟩⟩

/-- Own-property read of a raw module at the *current* state of the raw
heap (`mod[prop]`). -/
def rawGetIn (raws : List RawObj) (r : Nat) (k : String) : Value :=
  (alookup (raws.getD r default).props k).getD .undefV

/-! ## The executable content of transformed module code -/

/-- One statement of transformed SSR module code, mirroring the statement
shapes the SSR transform emits (cf. the `ssrTransform` test snapshots).
`importDep` is `const import_x = await __vite_ssr_import__(dep)`;
`defineExport` is `Object.defineProperty(__vite_ssr_exports__, name,
{enumerable: true, configurable: true, get(){ return localConst }})` for a
local binding whose (final) value is `v`; `defineExportFrom` is the same
accessor reading through an imported namespace (`export { key as name }
from dep`); `setProp` is a plain assignment `__vite_ssr_exports__.name =
v` (e.g. `export default`); `exportAllOf` is
`__vite_ssr_exportAll__(import_dep)`; `defineEsModule` is the
`Object.defineProperty(__vite_ssr_exports__, "__esModule", {value: true})`
prologue; `dynImport` is `await __vite_ssr_dynamic_import__(dep)`;
`throwErr` is module code that throws. -/
inductive Action : Type
  | importDep : String → Action
  | dynImport : String → Action
  | defineExport : String → Value → Action
  | defineExportFrom : String → String → String → Action
  | setProp : String → Value → Action
  | exportAllOf : String → Action
  | defineEsModule : Action
  | throwErr : String → Action
deriving Repr, DecidableEq

/-- The result of the transform collaborator for one URL: executable code
plus an optional source-map comment payload (only its presence matters to
the loader; `transform(url, {ssr: true}) -> {code, deps, map}`). -/
structure TransformResult : Type where
  code : List Action
  map : Option String
deriving Repr, DecidableEq

/-- A module record of the module graph (`ModuleNode`): the fields the
loader reads and writes — `url`, `file`, the cached instantiated namespace
`ssrModule`, and the cached transform result `ssrTransformResult`. -/
structure ModuleNode : Type where
  url : String
  file : Option String
  ssrModule : Option Nat
  ssrTransformResult : Option TransformResult
deriving Repr, DecidableEq

/-! ## Loader state and environment -/

/-- The mutable state the loader touches: the two process-wide tables
(`pendingModules` as the list of URLs whose instantiation promise is still
in flight, `pendingImports` mapping an in-progress module's URL to the
dependency URLs it is currently awaiting), the module graph's URL-to-record
map, the two object heaps, and a log of `transformRequest` invocations
(used to observe whether a load re-ran the transform). -/
structure LoaderState : Type where
  pendingModules : List String
  pendingImports : List (String × List String)
  moduleGraph : List (String × ModuleNode)
  heap : List NsObj
  rawHeap : List RawObj
  transformCalls : List String
deriving Repr, DecidableEq

/-- Errors a load can end in.  `deadlock` marks an `await` of a promise
that can never be fulfilled in the sequential model (a circular wait on an
in-flight ancestor's instantiation promise); `outOfFuel` marks exhaustion
of the step budget and carries no information about the program. -/
inductive Err : Type
  | loadFail : String → Err
  | resolveFail : String → Err
  | execError : String → Err
  | typeError : Err
  | deadlock : Err
  | outOfFuel : Err
deriving Repr, DecidableEq

deriving instance DecidableEq for Except

/-- The options record built by `instantiateModule` and handed to package
resolution (`InternalResolveOptions`). -/
structure ResolveOptions : Type where
  conditions : List String
  dedupe : List String
  isBuild : Bool
  isProduction : Bool
  isRequire : Bool
  mainFields : List String
  root : String
deriving Repr, DecidableEq

/-- The external collaborators and configuration: the transform pipeline,
`tryNodeResolve` for external packages, the host module loader (resolved
path to an index into the preloaded raw heap), the URL-to-file mapping of
the module graph, and the server config fields the loader reads. -/
structure Env : Type where
  isProduction : Bool
  dedupe : List String
  root : String
  urlToFile : String → Option String
  transforms : String → Option TransformResult
  resolveExternal : String → ResolveOptions → Option String
  hostModules : String → Option Nat

/-! ## Heap operations (JavaScript object primitives) -/

/-- Own-property lookup on a namespace object. -/
def nsGetOwn (s : LoaderState) (i : Nat) (k : String) : Option NsProp :=
  (s.heap.getD i default).props.find? (fun p => p.name = k)

/-- Insert-or-replace an own property, keeping the enumeration position of
an existing property of the same name (JS redefinition semantics). -/
def propsSet : List NsProp → NsProp → List NsProp
  | [], p => [p]
  | q :: rest, p => if q.name = p.name then p :: rest else q :: propsSet rest p

/-- `Object.defineProperty(obj, p.name, …)`: fails with a `TypeError` on a
frozen (non-configurable) object, otherwise installs the property. -/
def nsDefineProp (s : LoaderState) (i : Nat) (p : NsProp) :
    Except Err Unit × LoaderState :=
  let o := s.heap.getD i default
  if o.frozen then (.error .typeError, s)
  else (.ok (), { s with heap := s.heap.set i ({ o with props := propsSet o.props p }) })

/-- Property assignment `obj[k] = v` in non-strict code: silently a no-op
on a frozen object or through a getter-only accessor, otherwise updates
the data slot or creates an enumerable data property. -/
def nsAssign (s : LoaderState) (i : Nat) (k : String) (v : Value) : LoaderState :=
  let o := s.heap.getD i default
  if o.frozen then s
  else
    match (o.props.find? (fun p => p.name = k)) with
    | some p =>
        match p.val with
        | .getterTo _ _ => s
        | .dataVal _ =>
            { s with
                heap := s.heap.set i ({ o with props := propsSet o.props ({ p with val := .dataVal v }) }) }
    | none =>
        { s with heap := s.heap.set i ({ o with props := o.props ++ [⟨k, .dataVal v, true⟩] }) }

/-- `delete obj[k]`: fails (returns `false`, no mutation) on a frozen
object holding the property, otherwise removes it. -/
def nsDelete (s : LoaderState) (i : Nat) (k : String) : Bool × LoaderState :=
  let o := s.heap.getD i default
  if o.frozen then
    (((o.props.find? (fun p => p.name = k)).isNone : Bool), s)
  else
    (true,
      { s with heap := s.heap.set i ({ o with props := o.props.filter (fun p => p.name ≠ k) }) })

/-- `Object.freeze(obj)`. -/
def freezeNs (s : LoaderState) (i : Nat) : LoaderState :=
  { s with heap := s.heap.set i ({ s.heap.getD i default with frozen := true }) }

/-- Property read `v[k]`, resolving late-binding accessors through the
current heap.  The fuel bounds accessor chains (a runaway getter cycle in
JS would overflow the stack; here it yields `undefV`).  On the interop
proxy this is the `get` trap: `default` answers with the captured
`defaultExport`, every other name reads through to the raw module's
current value. -/
def propGet : Nat → LoaderState → Value → String → Value
  | _, s, .rawRef r, k => rawGetIn s.rawHeap r k
  | _, s, .proxyV r d, k => if k = "default" then d else rawGetIn s.rawHeap r k
  | fuel, s, .nsRef i, k =>
      match nsGetOwn s i k with
      | none => .undefV
      | some p =>
          match p.val with
          | .dataVal v => v
          | .getterTo src key =>
              match fuel with
              | 0 => .undefV
              | n + 1 => propGet n s src key
  | _, _, _, _ => .undefV

/-- The keys `for (const key in sourceModule)` iterates: enumerable own
properties, in insertion order.  For a `Proxy` with only a `get` trap the
enumeration comes from the raw target object. -/
def enumOwnKeys (s : LoaderState) : Value → List String
  | .nsRef i => ((s.heap.getD i default).props.filter (·.enumerable)).map (·.name)
  | .rawRef r => (s.rawHeap.getD r default).props.map (·.1)
  | .proxyV r _ => (s.rawHeap.getD r default).props.map (·.1)
  | _ => []

/-- The `ssrModule` cached on the module record for `u`, if any. -/
def recSsrModule (s : LoaderState) (u : String) : Option Nat :=
  (alookup s.moduleGraph u).bind (·.ssrModule)

/-! ## Small utilities from the surrounding server code -/

/-- `unwrapId` from `node/utils` (not part of the extracted sources):
strips the `/@id/` prefix used to mount virtual module ids on valid URLs. -/
def unwrapId (url : String) : String :=
  match url.data with
  | '/' :: '@' :: 'i' :: 'd' :: '/' :: rest => ⟨rest⟩
  | _ => url

/-- Segment normalisation for POSIX paths (`.` and `..` resolution). -/
def posixNormalizeSegs (segs : List String) : List String :=
  segs.foldl
    (fun acc seg =>
      if seg = "" ∨ seg = "." then acc
      else if seg = ".." then acc.dropLast
      else acc ++ [seg])
    []

/-- `path.posix.resolve(base, dep)` for an absolute `base`. -/
def posixResolve (base dep : String) : String :=
  let full := if dep.take 1 = "/" then dep else base ++ "/" ++ dep
  "/" ++ String.intercalate "/" (posixNormalizeSegs (full.splitOn "/"))

/-- `path.dirname(p)` for an absolute POSIX path. -/
def posixDirname (p : String) : String :=
  "/" ++ String.intercalate "/" ((posixNormalizeSegs (p.splitOn "/")).dropLast)

end ViteSSR

namespace ViteSSR

/-! ## The sandbox executor: the two compilation strategies

`instantiateModule` builds the code text `ssrModuleImpl` and compiles it
either with `new AsyncFunction(...Object.keys(ssrArguments), impl)` (the
production path, with a trailing `//# sourceURL=` comment) or with
`vm.runInThisContext('(0,async function(<keys>){' + code + '})')` (the
development path), and then invokes the compiled function with
`...Object.values(ssrArguments)`.  A code text is modelled as its
executable statement list plus its inert trailing comment lines; a
compiled unit is its formal parameter list plus the statement list.  The
modelling assumption about the host is that both compilers denote the same
function of (parameters, body) and that comment lines and source-map
attachments do not change executable content. -/

/-- The transform's injected binding names (from `ssrTransform.ts`). -/
def ssrModuleExportsKey : String := "__vite_ssr_exports__"

/-- Binding name of the static import resolver. -/
def ssrImportKey : String := "__vite_ssr_import__"

/-- Binding name of the dynamic import resolver. -/
def ssrDynamicImportKey : String := "__vite_ssr_dynamic_import__"

/-- Binding name of the re-export-all applier. -/
def ssrExportAllKey : String := "__vite_ssr_exportAll__"

/-- Binding name of the import-meta record. -/
def ssrImportMetaKey : String := "__vite_ssr_import_meta__"

/-- One argument value of the `ssrArguments` record: the context global,
the exports object (by heap index), the import-meta record, or one of the
three linkage closures. -/
inductive SsrArgVal : Type
  | globalArg : SsrArgVal
  | exportsArg : Nat → SsrArgVal
  | metaArg : String → SsrArgVal
  | importArg : SsrArgVal
  | dynImportArg : SsrArgVal
  | exportAllArg : SsrArgVal
deriving Repr, DecidableEq

/-- `Object.keys(ssrArguments)`, in the insertion order of the source. -/
def ssrArgumentKeys : List String :=
  ["global", ssrModuleExportsKey, ssrImportMetaKey, ssrImportKey,
   ssrDynamicImportKey, ssrExportAllKey]

/-- `Object.values(ssrArguments)` for a module whose exports object is heap
index `nsId` and whose import-meta url is `url`. -/
def ssrArgumentValues (nsId : Nat) (url : String) : List SsrArgVal :=
  [.globalArg, .exportsArg nsId, .metaArg url, .importArg, .dynImportArg,
   .exportAllArg]

/-- A plain code text: executable statements plus trailing comment lines. -/
structure SsrCodeText : Type where
  body : List Action
  comments : List String
deriving Repr, DecidableEq

/-- A code text already wrapped in `(0,async function(<params>){ … })`. -/
structure WrappedFnText : Type where
  params : List String
  body : List Action
  comments : List String
deriving Repr, DecidableEq

/-- A compiled callable unit: formal parameters plus body. -/
structure CompiledFn : Type where
  params : List String
  body : List Action
deriving Repr, DecidableEq

/-- The production impl text: `result.code + '\n//# sourceURL=' + mod.url`,
plus the source-map comment when the map has mappings. -/
def mkProdImpl (code : List Action) (modUrl : String) (map : Option String) :
    SsrCodeText :=
  { body := code,
    comments := ("//# sourceURL=" ++ modUrl) :: (match map with | some m => [m] | none => []) }

/-- The development impl text:
`'(0,async function(' + Object.keys(ssrArguments) + '){\n' + result.code + '\n})'`,
plus the source-map comment when the map has mappings. -/
def mkDevImpl (paramNames : List String) (code : List Action) (map : Option String) :
    WrappedFnText :=
  { params := paramNames, body := code,
    comments := match map with | some m => [m] | none => [] }

/-- `new AsyncFunction(...paramNames, implText)`: compiles the text as an
async function with exactly `paramNames` as formal parameters. -/
def compileAsyncFunction (paramNames : List String) (impl : SsrCodeText) : CompiledFn :=
  { params := paramNames, body := impl.body }

/-- `vm.runInThisContext(wrappedText)`: evaluates the wrapped function
expression, yielding the function it denotes (the `filename`,
`columnOffset` and `displayErrors` options affect diagnostics only). -/
def runInThisContext (impl : WrappedFnText) : CompiledFn :=
  { params := impl.params, body := impl.body }

/-! ## External collaborators -/

/-- Update the module-graph record for `url` in place (no-op if absent). -/
def updateNode (s : LoaderState) (url : String) (f : ModuleNode → ModuleNode) :
    LoaderState :=
  { s with moduleGraph := aupdate f s.moduleGraph url }

/-- `moduleGraph.ensureEntryFromUrl(url)`: returns the record for `url`,
creating a fresh one (no cached instance, no cached transform) on first
reference. -/
def ensureEntryFromUrl (env : Env) (s : LoaderState) (url : String) :
    ModuleNode × LoaderState :=
  match alookup s.moduleGraph url with
  | some m => (m, s)
  | none =>
      let m : ModuleNode := ⟨url, env.urlToFile url, none, none⟩
      (m, { s with moduleGraph := s.moduleGraph ++ [(url, m)] })

/-- `transformRequest(url, server, {ssr: true})`: consults the transform
collaborator, logs the invocation, and caches a successful result on the
module record (`ssrTransformResult`). -/
def transformRequest (env : Env) (s : LoaderState) (url : String) :
    Option TransformResult × LoaderState :=
  let s := { s with transformCalls := s.transformCalls ++ [url] }
  match env.transforms url with
  | none => (none, s)
  | some r => (some r, updateNode s url (fun m => { m with ssrTransformResult := some r }))

/-- The `InternalResolveOptions` record `instantiateModule` builds from the
server config. -/
def mkResolveOptions (env : Env) : ResolveOptions :=
  { conditions := ["node"], dedupe := env.dedupe, isBuild := true,
    isProduction := env.isProduction, isRequire := true,
    mainFields := ["main"], root := env.root }

/-- `nodeRequire(id, importer, resolveOptions)`: resolves an external
specifier (`resolveId` throws `Cannot find module` on failure), loads the
raw exports through the host loader (`Module.createRequire` /
`hookNodeResolve` are host mechanics without observable state here),
computes `defaultExport = mod.__esModule ? mod.default : mod` once, and
returns the read-through `Proxy` whose `get` trap answers `default` with
the captured `defaultExport` and every other name with the raw module's
current value. -/
def nodeRequire (env : Env) (id : String) (importer : Option String)
    (opts : ResolveOptions) (s : LoaderState) : Except Err Value :=
  match env.resolveExternal id opts with
  | none => .error (.resolveFail id)
  | some path =>
      match env.hostModules path with
      | none => .error (.resolveFail path)
      | some r =>
          let defaultExport :=
            if truthy (rawGetIn s.rawHeap r "__esModule") then rawGetIn s.rawHeap r "default"
            else .rawRef r
          .ok (.proxyV r defaultExport)

/-! ## `ssrExportAll` and the post-execution interop step -/

/-- The worker of `ssrExportAll`: installs a late-binding accessor on the
target for each listed key except `default`. -/
def exportAllKeys (target : Nat) (sourceModule : Value) :
    List String → LoaderState → Except Err Unit × LoaderState
  | [], s => (.ok (), s)
  | k :: rest, s =>
      if k = "default" then exportAllKeys target sourceModule rest s
      else
        match nsDefineProp s target ⟨k, .getterTo sourceModule k, true⟩ with
        | (.error e, s') => (.error e, s')
        | (.ok _, s') => exportAllKeys target sourceModule rest s'

/-- `ssrExportAll(sourceModule)`: for every enumerable key of the resolved
dependency namespace except `default`, define on the current module's stub
an enumerable configurable accessor `get(){ return sourceModule[key] }`. -/
def ssrExportAll (s : LoaderState) (target : Nat) (sourceModule : Value) :
    Except Err Unit × LoaderState :=
  exportAllKeys target sourceModule (enumOwnKeys s sourceModule) s

/-- Lines 210–215 of `instantiateModule`: if the executed module never set
a truthy `__esModule`, define `__esModule: true` and, when no own
`default` property exists, define `default` as the namespace object
itself (both non-enumerable, via `Object.defineProperty`). -/
def finalizeSsrModule (fuel : Nat) (s : LoaderState) (i : Nat) :
    Except Err Unit × LoaderState :=
  if truthy (propGet fuel s (.nsRef i) "__esModule") then (.ok (), s)
  else
    match nsDefineProp s i ⟨"__esModule", .dataVal (.boolV true), false⟩ with
    | (.error e, s') => (.error e, s')
    | (.ok _, s') =>
        if (nsGetOwn s' i "default").isSome then (.ok (), s')
        else nsDefineProp s' i ⟨"default", .dataVal (.nsRef i), false⟩

/-- `moduleGraph.urlToModuleMap.get(dep)?.ssrModule` as a value
(`undefined` when the record or its instance is absent). -/
def currentNamespaceOf (s : LoaderState) (dep : String) : Value :=
  match recSsrModule s dep with
  | some i => .nsRef i
  | none => .undefV

end ViteSSR

namespace ViteSSR

/-! ## The loader proper

The four mutually recursive functions of `ssrModuleLoader.ts`, sequential
as described in the file header.  The recursion is tied off through an
explicit fuel index: `LoaderFns` is the signature of the recursive group,
`loaderStep` is one unfolding of every body (recursive calls going through
`rec`), and `loaderFuel n` iterates it `n` times from the out-of-fuel
bottom, so `ssrLoadModule (n+1) … = `body with callees at fuel `n`
(`ssrLoadModule_succ` and friends below hold by `rfl`).  `Err.outOfFuel`
only ever signals an insufficient budget. -/

/-- The signature of the recursive group of `ssrModuleLoader.ts`. -/
structure LoaderFns : Type where
  ssrLoadModule : Env → String → List String → LoaderState →
    Except Err Value × LoaderState
  instantiateModule : Env → String → List String → LoaderState →
    Except Err Value × LoaderState
  invokeSsrInit : Env → String → Option String → List String → CompiledFn →
    List SsrArgVal → LoaderState → Except Err Unit × LoaderState
  runActions : Env → String → Option String → Nat → List String → List Action →
    List String → List (String × Value) → LoaderState →
    Except Err Unit × List String × List (String × Value) × LoaderState
  ssrImport : Env → String → Option String → List String → List String →
    String → LoaderState → Except Err Value × List String × LoaderState

/-- The exhausted bottom of the fuel iteration. -/
def loaderOut : LoaderFns where
  ssrLoadModule := fun _ _ _ s => (.error .outOfFuel, s)
  instantiateModule := fun _ _ _ s => (.error .outOfFuel, s)
  invokeSsrInit := fun _ _ _ _ _ _ s => (.error .outOfFuel, s)
  runActions := fun _ _ _ _ _ _ pd b s => (.error .outOfFuel, pd, b, s)
  ssrImport := fun _ _ _ _ pd _ s => (.error .outOfFuel, pd, s)

/-- One unfolding of every body of the group.  `n` is the remaining fuel,
used only as the accessor-chain budget of the post-execution interop step.

`ssrLoadModule(url, server, context, urlStack)` (lines 28–55): unwrap the
URL; if an instantiation promise for it is already pending, return it (in
the sequential model an in-flight entry belongs to an ancestor frame, so
awaiting it is a circular wait that can never complete — `deadlock`);
otherwise register the promise, run the instantiation, and on settlement
run the `.catch`/`.then` cleanup: a failure clears the module's
`pendingImports` entry, and the `pendingModules` entry is always removed.
(`pendingModules.set(url, modulePromise)` runs in the same synchronous
segment as the `instantiateModule(…)` call, whose prefix up to its first
await touches neither table, so the sequential model installs the entry
and then runs the instantiation to completion.)

`instantiateModule(url, server, context, urlStack)` (lines 57–218):
resolve the module record, short-circuit on a cached instance, obtain the
transform result (fatal if absent), create and publish the stub namespace
before any dependency is awaited, extend the ancestor path, compile the
code with the production or development executor, invoke it with the
`ssrArguments` values, then run the `__esModule` interop synthesis and
freeze and return the namespace.  An execution error is stack-rewritten
and logged (no observable state here) and re-thrown.

`invokeSsrInit` is `await ssrModuleInit(...Object.values(ssrArguments))`:
bind the compiled unit's formal parameters to the argument values
positionally and execute its body; the body addresses its exports object
through the `__vite_ssr_exports__` binding, and the linkage closures are
the ambient import machinery of the enclosing instantiation.

`runActions` is the module body: statements run in order, awaits
completing one at a time; `pendingDeps` is the instantiation's local
pending-dependency array and `bindings` the `const import_x = …` imports.

`ssrImport(dep)` (lines 110–128): an external specifier goes through
`nodeRequire`; a local one is unwrapped, and unless some dependency the
target is currently awaiting lies on our ancestor path (a true cycle,
skipped), it is pushed onto `pendingDeps`, registered in `pendingImports`
when it is the only pending entry, loaded recursively, and the
bookkeeping undone after the await (the table entry is removed when a
single dependency was pending — the array itself is not spliced in that
branch, exactly as in the source).  The returned namespace is whatever
the module graph currently records for the dependency. -/
def loaderStep (n : Nat) (rec : LoaderFns) : LoaderFns where
  ssrLoadModule := fun env url urlStack s =>
    let url := unwrapId url
    if selem s.pendingModules url then (.error .deadlock, s)
    else
      let s1 := { s with pendingModules := url :: s.pendingModules }
      let (r, s2) := rec.instantiateModule env url urlStack s1
      let s3 :=
        match r with
        | .error _ => { s2 with pendingImports := aerase s2.pendingImports url }
        | .ok _ => s2
      (r, { s3 with pendingModules := serase s3.pendingModules url })
  instantiateModule := fun env url urlStack s =>
    let (mod, s0) := ensureEntryFromUrl env s url
    match mod.ssrModule with
    | some i => (.ok (.nsRef i), s0)
    | none =>
      let (resultOpt, s1) :=
        match mod.ssrTransformResult with
        | some r => (some r, s0)
        | none => transformRequest env s0 url
      match resultOpt with
      | none => (.error (.loadFail url), s1)
      | some result =>
        -- `const ssrModule = {[Symbol.toStringTag]: 'Module'}` — fresh object…
        let nsId := s1.heap.length
        let s2 := { s1 with heap := s1.heap ++ [default] }
        -- …published onto the record before any dependency is awaited.
        let s3 := updateNode s2 url (fun m => { m with ssrModule := some nsId })
        let urlStack1 := urlStack ++ [url]
        let init :=
          if env.isProduction then
            compileAsyncFunction ssrArgumentKeys (mkProdImpl result.code mod.url result.map)
          else
            runInThisContext (mkDevImpl ssrArgumentKeys result.code result.map)
        match rec.invokeSsrInit env url mod.file urlStack1 init (ssrArgumentValues nsId url) s3 with
        | (.error e, s4) => (.error e, s4)
        | (.ok _, s4) =>
          match finalizeSsrModule n s4 nsId with
          | (.error e, s5) => (.error e, s5)
          | (.ok _, s5) => (.ok (.nsRef nsId), freezeNs s5 nsId)
  invokeSsrInit := fun env url file urlStack f args s =>
    match alookup (f.params.zip args) ssrModuleExportsKey with
    | some (.exportsArg nsId) =>
        match rec.runActions env url file nsId urlStack f.body [] [] s with
        | (r, _, _, s1) => (r, s1)
    | _ => (.error (.execError "module exports object not bound"), s)
  runActions := fun env url file nsId urlStack acts pendingDeps bindings s =>
    match acts with
    | [] => (.ok (), pendingDeps, bindings, s)
    | act :: rest =>
      match act with
      | .importDep dep =>
          match rec.ssrImport env url file urlStack pendingDeps dep s with
          | (.error e, pd, s1) => (.error e, pd, bindings, s1)
          | (.ok v, pd, s1) =>
              rec.runActions env url file nsId urlStack rest pd (aset bindings dep v) s1
      | .dynImport dep =>
          -- `ssrDynamicImport`: a relative specifier is resolved against the
          -- directory of the importing module's URL first.
          let dep1 := if dep.take 1 = "." then posixResolve (posixDirname url) dep else dep
          match rec.ssrImport env url file urlStack pendingDeps dep1 s with
          | (.error e, pd, s1) => (.error e, pd, bindings, s1)
          | (.ok _, pd, s1) => rec.runActions env url file nsId urlStack rest pd bindings s1
      | .defineExport name v =>
          match nsDefineProp s nsId ⟨name, .dataVal v, true⟩ with
          | (.error e, s1) => (.error e, pendingDeps, bindings, s1)
          | (.ok _, s1) => rec.runActions env url file nsId urlStack rest pendingDeps bindings s1
      | .defineExportFrom name dep key =>
          let src := (alookup bindings dep).getD .undefV
          match nsDefineProp s nsId ⟨name, .getterTo src key, true⟩ with
          | (.error e, s1) => (.error e, pendingDeps, bindings, s1)
          | (.ok _, s1) => rec.runActions env url file nsId urlStack rest pendingDeps bindings s1
      | .setProp name v =>
          rec.runActions env url file nsId urlStack rest pendingDeps bindings
            (nsAssign s nsId name v)
      | .exportAllOf dep =>
          match ssrExportAll s nsId ((alookup bindings dep).getD .undefV) with
          | (.error e, s1) => (.error e, pendingDeps, bindings, s1)
          | (.ok _, s1) => rec.runActions env url file nsId urlStack rest pendingDeps bindings s1
      | .defineEsModule =>
          match nsDefineProp s nsId ⟨"__esModule", .dataVal (.boolV true), false⟩ with
          | (.error e, s1) => (.error e, pendingDeps, bindings, s1)
          | (.ok _, s1) => rec.runActions env url file nsId urlStack rest pendingDeps bindings s1
      | .throwErr msg => (.error (.execError msg), pendingDeps, bindings, s)
  ssrImport := fun env url file urlStack pendingDeps dep s =>
    if dep.take 1 ≠ "." ∧ dep.take 1 ≠ "/" then
      match nodeRequire env dep file (mkResolveOptions env) s with
      | .error e => (.error e, pendingDeps, s)
      | .ok v => (.ok v, pendingDeps, s)
    else
      let dep := unwrapId dep
      let isCirc :=
        match alookup s.pendingImports dep with
        | some l => l.any (fun u => selem urlStack u)
        | none => false
      if isCirc then (.ok (currentNamespaceOf s dep), pendingDeps, s)
      else
        let pendingDeps1 := pendingDeps ++ [dep]
        let s1 :=
          if pendingDeps1.length = 1 then
            { s with pendingImports := aset s.pendingImports url pendingDeps1 }
          else s
        match rec.ssrLoadModule env dep urlStack s1 with
        | (.error e, s2) => (.error e, pendingDeps1, s2)
        | (.ok _, s2) =>
            let (pendingDeps2, s3) :=
              if pendingDeps1.length = 1 then
                (pendingDeps1, { s2 with pendingImports := aerase s2.pendingImports url })
              else (serase pendingDeps1 dep, s2)
            (.ok (currentNamespaceOf s3 dep), pendingDeps2, s3)

/-- The loader group at a given fuel. -/
def loaderFuel : Nat → LoaderFns
  | 0 => loaderOut
  | n + 1 => loaderStep n (loaderFuel n)

/-- `ssrLoadModule` at a fuel budget (lines 28–55 of the source). -/
def ssrLoadModule (fuel : Nat) (env : Env) (url : String)
    (urlStack : List String) (s : LoaderState) : Except Err Value × LoaderState :=
  (loaderFuel fuel).ssrLoadModule env url urlStack s

/-- `instantiateModule` at a fuel budget (lines 57–218 of the source). -/
def instantiateModule (fuel : Nat) (env : Env) (url : String)
    (urlStack : List String) (s : LoaderState) : Except Err Value × LoaderState :=
  (loaderFuel fuel).instantiateModule env url urlStack s

/-- The executor invocation at a fuel budget (line 194 of the source). -/
def invokeSsrInit (fuel : Nat) (env : Env) (url : String) (file : Option String)
    (urlStack : List String) (f : CompiledFn) (args : List SsrArgVal)
    (s : LoaderState) : Except Err Unit × LoaderState :=
  (loaderFuel fuel).invokeSsrInit env url file urlStack f args s

/-- Module-body execution at a fuel budget. -/
def runActions (fuel : Nat) (env : Env) (url : String) (file : Option String)
    (nsId : Nat) (urlStack : List String) (acts : List Action)
    (pendingDeps : List String) (bindings : List (String × Value))
    (s : LoaderState) :
    Except Err Unit × List String × List (String × Value) × LoaderState :=
  (loaderFuel fuel).runActions env url file nsId urlStack acts pendingDeps bindings s

/-- `ssrImport` at a fuel budget (lines 110–128 of the source). -/
def ssrImport (fuel : Nat) (env : Env) (url : String) (file : Option String)
    (urlStack : List String) (pendingDeps : List String) (dep : String)
    (s : LoaderState) : Except Err Value × List String × LoaderState :=
  (loaderFuel fuel).ssrImport env url file urlStack pendingDeps dep s

end ViteSSR

namespace ViteSSR

/-! ## The synchronous segment of the coordinator (same-tick concurrency)

`ssrLoadModule` contains no `await` between its `pendingModules.get`
check and the `pendingModules.set` that installs the shared promise (the
intervening `instantiateModule(…)` call suspends at its own first await,
`moduleGraph.ensureEntryFromUrl`, before touching any table).  Under the
host's run-to-completion guarantee, N loads issued in the same tick
therefore execute these synchronous segments back to back.  `CoordState`
models exactly this segment: promises by identity (`Nat`), plus the log of
instantiation-engine starts. -/

/-- Coordinator state for the synchronous segment: the pending-promise
table, a fresh-promise counter, and the ordered log of
`instantiateModule` invocations. -/
structure CoordState : Type where
  pendingModules : List (String × Nat)
  nextPromiseId : Nat
  started : List String
deriving Repr, DecidableEq

/-- The synchronous segment of `ssrLoadModule(url)` (lines 40–54 up to the
`return`): answer an existing pending promise unchanged, or start the
instantiation engine, install a fresh promise in `pendingModules`, and
return it. -/
def ssrLoadModuleSyncPhase (url : String) (s : CoordState) : Nat × CoordState :=
  let url := unwrapId url
  match alookup s.pendingModules url with
  | some p => (p, s)
  | none =>
      (s.nextPromiseId,
       { pendingModules := (url, s.nextPromiseId) :: s.pendingModules,
         nextPromiseId := s.nextPromiseId + 1,
         started := s.started ++ [url] })

/-- `n` same-tick calls of `ssrLoadModule(url)`, none of which has reached
a suspension point: their synchronous segments run consecutively.
Returns the promise each call hands back. -/
def loadSameTick : Nat → String → CoordState → List Nat × CoordState
  | 0, _, s => ([], s)
  | n + 1, url, s =>
      let (p, s1) := ssrLoadModuleSyncPhase url s
      let (ps, s2) := loadSameTick n url s1
      (p :: ps, s2)

end ViteSSR

namespace ViteSSR

/-! ## Concrete scenarios -/

/-- The empty initial loader state: no pending work, no records, empty
heaps. -/
def emptyState : LoaderState := ⟨[], [], [], [], [], []⟩

/-- A module environment with no external packages, used by the concrete
scenarios below. -/
def baseEnv : Env :=
  { isProduction := true, dedupe := [], root := "/",
    urlToFile := fun _ => none,
    transforms := fun _ => none,
    resolveExternal := fun _ _ => none,
    hostModules := fun _ => none }

/-- Mutual static imports: `/a` imports `/b` and exports `a = va`; `/b`
imports `/a`, exports `b = vb`, and re-exports `/a`'s `a` as `ra`
(`export { a as ra } from '/a'`). -/
def envAB (va vb : Value) : Env :=
  { baseEnv with
    transforms := fun u =>
      if u = "/a" then
        some ⟨[.defineEsModule, .importDep "/b", .defineExport "a" va], none⟩
      else if u = "/b" then
        some ⟨[.defineEsModule, .importDep "/a", .defineExport "b" vb,
               .defineExportFrom "ra" "/a" "a"], none⟩
      else none }

/-- A module `/f` whose execution throws `Error('boom')`. -/
def envThrow : Env :=
  { baseEnv with
    transforms := fun u =>
      if u = "/f" then some ⟨[.defineEsModule, .throwErr "boom"], none⟩ else none }

/-- A module `/m` with a direct self-import (`deps` contains `/m`
itself). -/
def envSelf : Env :=
  { baseEnv with
    transforms := fun u =>
      if u = "/m" then
        some ⟨[.defineEsModule, .importDep "/m", .defineExport "x" (.intV 1)], none⟩
      else none }

/-- `transform('/a.js') = {code: "export const x = 1", deps: []}`: the
transformed code marks `__esModule` and defines the `x` accessor. -/
def envConstX : Env :=
  { baseEnv with
    transforms := fun u =>
      if u = "/a.js" then
        some ⟨[.defineEsModule, .defineExport "x" (.intV 1)], none⟩
      else none }

/-- `/a2` declares `export * from '/b2'`; `/b2` exports `foo = 2` and a
default export. -/
def envExportAll : Env :=
  { baseEnv with
    transforms := fun u =>
      if u = "/a2" then
        some ⟨[.defineEsModule, .importDep "/b2", .exportAllOf "/b2"], none⟩
      else if u = "/b2" then
        some ⟨[.defineEsModule, .defineExport "foo" (.intV 2),
               .setProp "default" (.intV 9)], none⟩
      else none }

/-- A raw-module heap for the interop scenarios: index 0 a CommonJS-style
module `{foo: 7}` without `__esModule`, index 1 an ES-flavoured module
with `__esModule: true` and a `default`. -/
def rawState : LoaderState :=
  { emptyState with
    rawHeap := [⟨[("foo", .intV 7)]⟩,
                ⟨[("__esModule", .boolV true), ("default", .intV 5)]⟩] }

/-- Modelled from the spec: external invalidation of a module record (§3:
"invalidated externally (e.g., on file change) by clearing both cached
fields"; §6 module-graph collaborator).  The module graph clears
`ssrModule` and `ssrTransformResult`; the code performing it is not under
the extracted sources. -/
def invalidateModule (s : LoaderState) (url : String) : LoaderState :=
  updateNode s url (fun m => { m with ssrModule := none, ssrTransformResult := none })

/-- An environment with two resolvable external packages backed by
`rawState`. -/
def envExt : Env :=
  { baseEnv with
    resolveExternal := fun id _ =>
      if id = "pkg" then some "/node_modules/pkg/index.js"
      else if id = "es" then some "/node_modules/es/index.js"
      else none,
    hostModules := fun p =>
      if p = "/node_modules/pkg/index.js" then some 0
      else if p = "/node_modules/es/index.js" then some 1
      else none }

end ViteSSR

namespace ViteSSR

/-! ## Unfolding equations of the loader group -/

theorem ssrLoadModule_zero (env : Env) (url : String) (urlStack : List String)
    (s : LoaderState) : ssrLoadModule 0 env url urlStack s = (.error .outOfFuel, s) := rfl

theorem instantiateModule_zero (env : Env) (url : String) (urlStack : List String)
    (s : LoaderState) : instantiateModule 0 env url urlStack s = (.error .outOfFuel, s) := rfl

theorem ssrLoadModule_succ (n : Nat) (env : Env) (url : String)
    (urlStack : List String) (s : LoaderState) :
    ssrLoadModule (n + 1) env url urlStack s =
      (let url := unwrapId url
       if selem s.pendingModules url then (.error .deadlock, s)
       else
         let s1 := { s with pendingModules := url :: s.pendingModules }
         let (r, s2) := instantiateModule n env url urlStack s1
         let s3 :=
           match r with
           | .error _ => { s2 with pendingImports := aerase s2.pendingImports url }
           | .ok _ => s2
         (r, { s3 with pendingModules := serase s3.pendingModules url })) := rfl

theorem instantiateModule_succ (n : Nat) (env : Env) (url : String)
    (urlStack : List String) (s : LoaderState) :
    instantiateModule (n + 1) env url urlStack s =
      (let (mod, s0) := ensureEntryFromUrl env s url
       match mod.ssrModule with
       | some i => (.ok (.nsRef i), s0)
       | none =>
         let (resultOpt, s1) :=
           match mod.ssrTransformResult with
           | some r => (some r, s0)
           | none => transformRequest env s0 url
         match resultOpt with
         | none => (.error (.loadFail url), s1)
         | some result =>
           let nsId := s1.heap.length
           let s2 := { s1 with heap := s1.heap ++ [default] }
           let s3 := updateNode s2 url (fun m => { m with ssrModule := some nsId })
           let urlStack1 := urlStack ++ [url]
           let init :=
             if env.isProduction then
               compileAsyncFunction ssrArgumentKeys (mkProdImpl result.code mod.url result.map)
             else
               runInThisContext (mkDevImpl ssrArgumentKeys result.code result.map)
           match invokeSsrInit n env url mod.file urlStack1 init (ssrArgumentValues nsId url) s3 with
           | (.error e, s4) => (.error e, s4)
           | (.ok _, s4) =>
             match finalizeSsrModule n s4 nsId with
             | (.error e, s5) => (.error e, s5)
             | (.ok _, s5) => (.ok (.nsRef nsId), freezeNs s5 nsId)) := rfl

theorem invokeSsrInit_succ (n : Nat) (env : Env) (url : String) (file : Option String)
    (urlStack : List String) (f : CompiledFn) (args : List SsrArgVal) (s : LoaderState) :
    invokeSsrInit (n + 1) env url file urlStack f args s =
      (match alookup (f.params.zip args) ssrModuleExportsKey with
       | some (.exportsArg nsId) =>
           match runActions n env url file nsId urlStack f.body [] [] s with
           | (r, _, _, s1) => (r, s1)
       | _ => (.error (.execError "module exports object not bound"), s)) := rfl

theorem runActions_succ (n : Nat) (env : Env) (url : String) (file : Option String)
    (nsId : Nat) (urlStack : List String) (acts : List Action)
    (pendingDeps : List String) (bindings : List (String × Value)) (s : LoaderState) :
    runActions (n + 1) env url file nsId urlStack acts pendingDeps bindings s =
      (match acts with
       | [] => (.ok (), pendingDeps, bindings, s)
       | act :: rest =>
         match act with
         | .importDep dep =>
             match ssrImport n env url file urlStack pendingDeps dep s with
             | (.error e, pd, s1) => (.error e, pd, bindings, s1)
             | (.ok v, pd, s1) =>
                 runActions n env url file nsId urlStack rest pd (aset bindings dep v) s1
         | .dynImport dep =>
             let dep1 := if dep.take 1 = "." then posixResolve (posixDirname url) dep else dep
             match ssrImport n env url file urlStack pendingDeps dep1 s with
             | (.error e, pd, s1) => (.error e, pd, bindings, s1)
             | (.ok _, pd, s1) => runActions n env url file nsId urlStack rest pd bindings s1
         | .defineExport name v =>
             match nsDefineProp s nsId ⟨name, .dataVal v, true⟩ with
             | (.error e, s1) => (.error e, pendingDeps, bindings, s1)
             | (.ok _, s1) => runActions n env url file nsId urlStack rest pendingDeps bindings s1
         | .defineExportFrom name dep key =>
             let src := (alookup bindings dep).getD .undefV
             match nsDefineProp s nsId ⟨name, .getterTo src key, true⟩ with
             | (.error e, s1) => (.error e, pendingDeps, bindings, s1)
             | (.ok _, s1) => runActions n env url file nsId urlStack rest pendingDeps bindings s1
         | .setProp name v =>
             runActions n env url file nsId urlStack rest pendingDeps bindings
               (nsAssign s nsId name v)
         | .exportAllOf dep =>
             match ssrExportAll s nsId ((alookup bindings dep).getD .undefV) with
             | (.error e, s1) => (.error e, pendingDeps, bindings, s1)
             | (.ok _, s1) => runActions n env url file nsId urlStack rest pendingDeps bindings s1
         | .defineEsModule =>
             match nsDefineProp s nsId ⟨"__esModule", .dataVal (.boolV true), false⟩ with
             | (.error e, s1) => (.error e, pendingDeps, bindings, s1)
             | (.ok _, s1) => runActions n env url file nsId urlStack rest pendingDeps bindings s1
         | .throwErr msg => (.error (.execError msg), pendingDeps, bindings, s)) := rfl

theorem ssrImport_succ (n : Nat) (env : Env) (url : String) (file : Option String)
    (urlStack : List String) (pendingDeps : List String) (dep : String) (s : LoaderState) :
    ssrImport (n + 1) env url file urlStack pendingDeps dep s =
      (if dep.take 1 ≠ "." ∧ dep.take 1 ≠ "/" then
         match nodeRequire env dep file (mkResolveOptions env) s with
         | .error e => (.error e, pendingDeps, s)
         | .ok v => (.ok v, pendingDeps, s)
       else
         let dep := unwrapId dep
         let isCirc :=
           match alookup s.pendingImports dep with
           | some l => l.any (fun u => selem urlStack u)
           | none => false
         if isCirc then (.ok (currentNamespaceOf s dep), pendingDeps, s)
         else
           let pendingDeps1 := pendingDeps ++ [dep]
           let s1 :=
             if pendingDeps1.length = 1 then
               { s with pendingImports := aset s.pendingImports url pendingDeps1 }
             else s
           match ssrLoadModule n env dep urlStack s1 with
           | (.error e, s2) => (.error e, pendingDeps1, s2)
           | (.ok _, s2) =>
               let (pendingDeps2, s3) :=
                 if pendingDeps1.length = 1 then
                   (pendingDeps1, { s2 with pendingImports := aerase s2.pendingImports url })
                 else (serase pendingDeps1 dep, s2)
               (.ok (currentNamespaceOf s3 dep), pendingDeps2, s3)) := rfl

/-! ## Basic lemmas about the table and heap primitives -/

theorem alookup_aset_self {α : Type} (l : List (String × α)) (k : String) (v : α) :
    alookup (aset l k v) k = some v := by
  induction l with
  | nil => simp [aset, alookup]
  | cons hd tl ih =>
      obtain ⟨k', w⟩ := hd
      by_cases h : k' = k
      · simp [aset, alookup, h]
      · simp [aset, alookup, h, ih]

theorem alookup_aset_ne {α : Type} (l : List (String × α)) (k k' : String) (v : α)
    (h : k' ≠ k) : alookup (aset l k v) k' = alookup l k' := by
  induction l with
  | nil => simp [aset, alookup, Ne.symm h]
  | cons hd tl ih =>
      obtain ⟨k'', w⟩ := hd
      by_cases h2 : k'' = k
      · subst h2
        simp [aset, alookup, Ne.symm h]
      · simp [aset, alookup, h2, ih]

theorem alookup_aupdate_ne {α : Type} (f : α → α) (l : List (String × α))
    (k k' : String) (h : k' ≠ k) :
    alookup (aupdate f l k) k' = alookup l k' := by
  induction l with
  | nil => simp [aupdate, alookup]
  | cons hd tl ih =>
      obtain ⟨k'', w⟩ := hd
      by_cases h2 : k'' = k
      · subst h2
        simp [aupdate, alookup, Ne.symm h]
      · simp [aupdate, alookup, h2, ih]

theorem alookup_aupdate_self {α : Type} (f : α → α) (l : List (String × α))
    (k : String) :
    alookup (aupdate f l k) k = (alookup l k).map f := by
  induction l with
  | nil => simp [aupdate, alookup]
  | cons hd tl ih =>
      obtain ⟨k'', w⟩ := hd
      by_cases h2 : k'' = k
      · simp [aupdate, alookup, h2]
      · simp [aupdate, alookup, h2, ih]

theorem alookup_append {α : Type} (l l' : List (String × α)) (k : String) :
    alookup (l ++ l') k =
      match alookup l k with
      | some v => some v
      | none => alookup l' k := by
  induction l with
  | nil => simp [alookup]
  | cons hd tl ih =>
      obtain ⟨k'', w⟩ := hd
      by_cases h2 : k'' = k
      · simp [alookup, h2]
      · simp [alookup, h2, ih]

theorem serase_cons_self (l : List String) (u : String) : serase (u :: l) u = l := by
  simp [serase]

theorem selem_eq_false_iff (l : List String) (u : String) :
    selem l u = false ↔ u ∉ l := by
  induction l with
  | nil => simp [selem]
  | cons hd tl ih =>
      by_cases h : hd = u
      · subst h; simp [selem]
      · simp [selem, h, ih, Ne.symm h]

theorem getD_append_lt {α : Type} [Inhabited α] (l l' : List α) (i : Nat)
    (h : i < l.length) : (l ++ l').getD i default = l.getD i default := by
  simp [List.getD, List.getElem?_append_left h]

theorem getD_set_ne {α : Type} [Inhabited α] (l : List α) (i j : Nat) (a : α)
    (h : i ≠ j) : (l.set j a).getD i default = l.getD i default := by
  simp [List.getD, List.getElem?_set_ne (fun hh => h hh.symm)]

theorem getD_set_self {α : Type} [Inhabited α] (l : List α) (i : Nat) (a : α)
    (h : i < l.length) : (l.set i a).getD i default = a := by
  simp [List.getD, List.getElem?_set_self, h]

theorem find?_propsSet_self (props : List NsProp) (p : NsProp) :
    (propsSet props p).find? (fun q => q.name = p.name) = some p := by
  induction props with
  | nil => simp [propsSet, List.find?]
  | cons hd tl ih =>
      by_cases h : hd.name = p.name
      · simp [propsSet, h, List.find?]
      · simp [propsSet, h, List.find?, ih]

theorem find?_propsSet_ne (props : List NsProp) (p : NsProp) (k : String)
    (h : k ≠ p.name) :
    (propsSet props p).find? (fun q => q.name = k) =
      props.find? (fun q => q.name = k) := by
  induction props with
  | nil =>
      simp [propsSet, List.find?, Ne.symm h]
  | cons hd tl ih =>
      by_cases h2 : hd.name = p.name
      · have hhd : ¬(hd.name = k) := by rw [h2]; exact Ne.symm h
        simp [propsSet, h2, List.find?, Ne.symm h, hhd]
      · by_cases h3 : hd.name = k
        · simp [propsSet, h2, List.find?, h3, h]
        · simp [propsSet, h2, List.find?, h3, ih]

end ViteSSR

namespace ViteSSR

/-! ## State evolution

`Evolves s s'` captures what any completed loader call preserves: the heap
only grows, the `pendingModules` table is restored exactly, the raw heap
is never touched, a module record's published `ssrModule` index is never
changed once set, and a pre-existing namespace object never changes its
frozen flag — in particular a frozen object is never mutated again. -/

def Evolves (s s' : LoaderState) : Prop :=
  s.heap.length ≤ s'.heap.length ∧
  s'.pendingModules = s.pendingModules ∧
  s'.rawHeap = s.rawHeap ∧
  (∀ u i, recSsrModule s u = some i → recSsrModule s' u = some i) ∧
  (∀ i, i < s.heap.length →
      (s'.heap.getD i default).frozen = (s.heap.getD i default).frozen ∧
      ((s.heap.getD i default).frozen = true →
        s'.heap.getD i default = s.heap.getD i default))

theorem evolves_refl (s : LoaderState) : Evolves s s :=
  ⟨le_refl _, rfl, rfl, fun _ _ h => h, fun _ _ => ⟨rfl, fun _ => rfl⟩⟩

theorem evolves_trans {s1 s2 s3 : LoaderState}
    (h1 : Evolves s1 s2) (h2 : Evolves s2 s3) : Evolves s1 s3 := by
  obtain ⟨l1, p1, r1, m1, f1⟩ := h1
  obtain ⟨l2, p2, r2, m2, f2⟩ := h2
  refine ⟨le_trans l1 l2, p2.trans p1, r2.trans r1, fun u i h => m2 u i (m1 u i h), ?_⟩
  intro i hi
  obtain ⟨ff1, pp1⟩ := f1 i hi
  obtain ⟨ff2, pp2⟩ := f2 i (lt_of_lt_of_le hi l1)
  refine ⟨ff2.trans ff1, fun hfz => ?_⟩
  have := pp1 hfz
  rw [pp2, this]
  rw [this]; exact hfz

/-- A step that leaves heap, tables and graph untouched evolves. -/
theorem evolves_of_parts {s s' : LoaderState}
    (hheap : s'.heap = s.heap) (hpm : s'.pendingModules = s.pendingModules)
    (hraw : s'.rawHeap = s.rawHeap) (hmg : s'.moduleGraph = s.moduleGraph) :
    Evolves s s' := by
  refine ⟨?_, hpm, hraw, ?_, ?_⟩
  · rw [hheap]
  · intro u i h
    unfold recSsrModule at *
    rw [hmg]; exact h
  · intro i hi
    rw [hheap]
    exact ⟨rfl, fun _ => rfl⟩

/-- A heap write that preserves length, the frozen flag at its own index,
and does not touch frozen entries, evolves. -/
theorem evolves_of_heap_write {s : LoaderState} {i : Nat} {o' : NsObj}
    (hflag : o'.frozen = (s.heap.getD i default).frozen)
    (hnotfrozen : (s.heap.getD i default).frozen = false) :
    Evolves s { s with heap := s.heap.set i o' } := by
  refine ⟨by simp, rfl, rfl, fun u j h => h, fun j hj => ?_⟩
  by_cases hij : j = i
  · subst hij
    by_cases hlen : j < s.heap.length
    · simp only [getD_set_self s.heap j o' hlen]
      exact ⟨by rw [hflag], fun hfz => by rw [hnotfrozen] at hfz; cases hfz⟩
    · omega
  · rw [getD_set_ne s.heap j i o' hij]
    exact ⟨rfl, fun _ => rfl⟩

theorem evolves_nsDefineProp (s : LoaderState) (i : Nat) (p : NsProp) :
    Evolves s (nsDefineProp s i p).2 := by
  unfold nsDefineProp
  dsimp only
  split
  · exact evolves_refl s
  · next h =>
      exact evolves_of_heap_write rfl (by simpa using h)

theorem evolves_nsAssign (s : LoaderState) (i : Nat) (k : String) (v : Value) :
    Evolves s (nsAssign s i k v) := by
  unfold nsAssign
  dsimp only
  split
  · exact evolves_refl s
  · next h =>
      split
      · split
        · exact evolves_refl s
        · exact evolves_of_heap_write rfl (by simpa using h)
      · exact evolves_of_heap_write rfl (by simpa using h)

theorem evolves_exportAllKeys (target : Nat) (src : Value) (keys : List String) :
    ∀ s : LoaderState, Evolves s (exportAllKeys target src keys s).2 := by
  induction keys with
  | nil => intro s; exact evolves_refl s
  | cons k rest ih =>
      intro s
      unfold exportAllKeys
      split
      · exact ih s
      · have h1 := evolves_nsDefineProp s target ⟨k, .getterTo src k, true⟩
        split
        · next e s1 heq =>
            rw [heq] at h1; exact h1
        · next s1 heq =>
            rw [heq] at h1
            exact evolves_trans h1 (ih s1)

theorem evolves_ssrExportAll (s : LoaderState) (target : Nat) (src : Value) :
    Evolves s (ssrExportAll s target src).2 :=
  evolves_exportAllKeys target src (enumOwnKeys s src) s

theorem evolves_finalize (fuel : Nat) (s : LoaderState) (i : Nat) :
    Evolves s (finalizeSsrModule fuel s i).2 := by
  unfold finalizeSsrModule
  split
  · exact evolves_refl s
  · have h1 := evolves_nsDefineProp s i ⟨"__esModule", .dataVal (.boolV true), false⟩
    split
    · next e s1 heq =>
        rw [heq] at h1; exact h1
    · next s1 heq =>
        rw [heq] at h1
        split
        · exact h1
        · exact evolves_trans h1 (evolves_nsDefineProp s1 i ⟨"default", .dataVal (.nsRef i), false⟩)

theorem evolves_transformRequest (env : Env) (s : LoaderState) (url : String) :
    Evolves s (transformRequest env s url).2 := by
  unfold transformRequest
  rcases env.transforms url with _ | r
  · simp only
    exact evolves_of_parts rfl rfl rfl rfl
  · simp only [updateNode]
    refine ⟨by simp, rfl, rfl, fun u i h => ?_, fun i hi => ⟨rfl, fun _ => rfl⟩⟩
    unfold recSsrModule at *
    simp only at h ⊢
    by_cases hu : u = url
    · subst hu
      rw [alookup_aupdate_self]
      rcases hl : alookup s.moduleGraph u with _ | m
      · rw [hl] at h; cases h
      · rw [hl] at h; simpa using h
    · rw [alookup_aupdate_ne _ _ _ _ hu]; exact h

theorem evolves_ensureEntry (env : Env) (s : LoaderState) (url : String) :
    Evolves s (ensureEntryFromUrl env s url).2 := by
  unfold ensureEntryFromUrl
  rcases hl : alookup s.moduleGraph url with _ | m
  · simp only
    refine ⟨le_refl _, rfl, rfl, fun u i h => ?_, fun i hi => ⟨rfl, fun _ => rfl⟩⟩
    unfold recSsrModule at *
    simp only
    rw [alookup_append]
    rcases hu : alookup s.moduleGraph u with _ | m2
    · rw [hu] at h; cases h
    · rw [hu] at h; simpa using h
  · simp only
    exact evolves_refl s

end ViteSSR

namespace ViteSSR

theorem recSsrModule_transformRequest (env : Env) (s : LoaderState) (url u : String) :
    recSsrModule (transformRequest env s url).2 u = recSsrModule s u := by
  unfold transformRequest
  rcases env.transforms url with _ | r
  · simp [recSsrModule]
  · simp only [updateNode, recSsrModule]
    by_cases hu : u = url
    · subst hu
      rw [alookup_aupdate_self]
      rcases alookup s.moduleGraph u with _ | m <;> simp
    · rw [alookup_aupdate_ne _ _ _ _ hu]

theorem heap_transformRequest (env : Env) (s : LoaderState) (url : String) :
    (transformRequest env s url).2.heap = s.heap := by
  unfold transformRequest
  rcases env.transforms url with _ | r <;> simp [updateNode]

theorem pendingModules_transformRequest (env : Env) (s : LoaderState) (url : String) :
    (transformRequest env s url).2.pendingModules = s.pendingModules := by
  unfold transformRequest
  rcases env.transforms url with _ | r <;> simp [updateNode]

theorem heap_ensureEntry (env : Env) (s : LoaderState) (url : String) :
    (ensureEntryFromUrl env s url).2.heap = s.heap := by
  unfold ensureEntryFromUrl
  rcases alookup s.moduleGraph url with _ | m <;> simp

theorem pendingModules_ensureEntry (env : Env) (s : LoaderState) (url : String) :
    (ensureEntryFromUrl env s url).2.pendingModules = s.pendingModules := by
  unfold ensureEntryFromUrl
  rcases alookup s.moduleGraph url with _ | m <;> simp

/-- Allocating the stub namespace at the end of the heap evolves. -/
theorem evolves_alloc (s : LoaderState) :
    Evolves s { s with heap := s.heap ++ [default] } := by
  refine ⟨by simp, rfl, rfl, fun u i h => h, fun i hi => ?_⟩
  rw [getD_append_lt s.heap [default] i hi]
  exact ⟨rfl, fun _ => rfl⟩

/-- Publishing the stub index on a record whose `ssrModule` is still unset
evolves. -/
theorem evolves_publish (s : LoaderState) (url : String) (nsId : Nat)
    (h : recSsrModule s url = none) :
    Evolves s (updateNode s url (fun m => { m with ssrModule := some nsId })) := by
  refine ⟨le_refl _, rfl, rfl, fun u i hu => ?_, fun i hi => ⟨rfl, fun _ => rfl⟩⟩
  unfold recSsrModule at *
  simp only [updateNode]
  by_cases huu : u = url
  · subst huu
    rcases hl : alookup s.moduleGraph u with _ | m
    · rw [hl] at hu; cases hu
    · rw [hl] at hu
      rw [hl] at h
      simp only [Option.bind] at h
      simp only [Option.bind] at hu
      rw [h] at hu
      cases hu
  · rw [alookup_aupdate_ne _ _ _ _ huu]
    exact hu

/-- The coordinator's tail: the pending entry installed at entry is
removed again, and a `pendingImports` rewrite is harmless. -/
theorem evolves_cleanup {s s2 : LoaderState} {u : String}
    (h : Evolves { s with pendingModules := u :: s.pendingModules } s2)
    (pi2 : List (String × List String)) :
    Evolves s
      { s2 with pendingImports := pi2,
                pendingModules := serase s2.pendingModules u } := by
  obtain ⟨hl, hp, hr, hm, hf⟩ := h
  refine ⟨hl, ?_, hr, hm, hf⟩
  simp only [hp]
  exact serase_cons_self s.pendingModules u

end ViteSSR

namespace ViteSSR

/-- Freezing a namespace allocated during the call (index at or beyond the
initial heap length) preserves evolution. -/
theorem evolves_freeze_new {s s5 : LoaderState} {nsId : Nat}
    (h : Evolves s s5) (hid : s.heap.length ≤ nsId) :
    Evolves s (freezeNs s5 nsId) := by
  obtain ⟨hl, hp, hr, hm, hf⟩ := h
  refine ⟨?_, hp, hr, hm, ?_⟩
  · unfold freezeNs
    simpa using hl
  · intro i hi
    unfold freezeNs
    have hne : i ≠ nsId := by omega
    simp only
    rw [getD_set_ne _ _ _ _ hne]
    exact hf i hi

/-- The record for `url` still has no published instance right after
`ensureEntryFromUrl` when the returned record has none. -/
theorem recSsrModule_none_of_ensure {env : Env} {s : LoaderState} {url : String}
    {mod : ModuleNode} {s0 : LoaderState}
    (hEns : ensureEntryFromUrl env s url = (mod, s0))
    (hmod : mod.ssrModule = none) : recSsrModule s0 url = none := by
  unfold ensureEntryFromUrl at hEns
  rcases hl : alookup s.moduleGraph url with _ | m
  · rw [hl] at hEns
    simp only at hEns
    obtain ⟨hmod2, hs0⟩ := Prod.mk.injEq .. ▸ hEns
    subst hs0
    unfold recSsrModule
    simp only
    rw [alookup_append, hl]
    simp [alookup]
  · rw [hl] at hEns
    simp only at hEns
    obtain ⟨hmod2, hs0⟩ := Prod.mk.injEq .. ▸ hEns
    subst hs0
    subst hmod2
    unfold recSsrModule
    rw [hl]
    simpa using hmod

/-- Every completed interpreter call evolves the state: the heap grows
monotonically, `pendingModules` is restored, the raw heap is untouched, a
published `ssrModule` index is never changed, and a pre-existing
namespace never changes its frozen flag (in particular frozen objects are
never mutated). -/
theorem evolves_interp : ∀ n : Nat,
    (∀ env url stk s, Evolves s (ssrLoadModule n env url stk s).2) ∧
    (∀ env url stk s, Evolves s (instantiateModule n env url stk s).2) ∧
    (∀ env url file stk f args s, Evolves s (invokeSsrInit n env url file stk f args s).2) ∧
    (∀ env url file ns stk acts pd b s,
        Evolves s (runActions n env url file ns stk acts pd b s).2.2.2) ∧
    (∀ env url file stk pd dep s, Evolves s (ssrImport n env url file stk pd dep s).2.2) := by
  intro n
  induction n with
  | zero =>
      refine ⟨?_, ?_, ?_, ?_, ?_⟩ <;> intros <;> exact evolves_refl _
  | succ n ih =>
      obtain ⟨ihL, ihI, ihV, ihR, ihM⟩ := ih
      refine ⟨?_, ?_, ?_, ?_, ?_⟩
      -- ssrLoadModule
      · intro env url stk s
        rw [ssrLoadModule_succ]
        dsimp only
        split
        · exact evolves_refl s
        · rcases hInst : instantiateModule n env (unwrapId url) stk
            { s with pendingModules := unwrapId url :: s.pendingModules } with ⟨r, s2⟩
          have hE := ihI env (unwrapId url) stk
            { s with pendingModules := unwrapId url :: s.pendingModules }
          rw [hInst] at hE
          cases r with
          | error e => exact evolves_cleanup hE _
          | ok v => exact evolves_cleanup hE _
      -- instantiateModule
      · intro env url stk s
        rw [instantiateModule_succ]
        dsimp only
        rcases hEns : ensureEntryFromUrl env s url with ⟨mod, s0⟩
        have hE0 : Evolves s s0 := by
          have h := evolves_ensureEntry env s url
          rw [hEns] at h; exact h
        dsimp only
        rcases hmod : mod.ssrModule with _ | i
        case some => exact hE0
        case none =>
        dsimp only
        rcases hTR : mod.ssrTransformResult with _ | tr
        case some =>
          dsimp only
          -- cached transform: s1 = s0
          have hrec : recSsrModule s0 url = none := recSsrModule_none_of_ensure hEns hmod
          rcases hInv : invokeSsrInit n env url mod.file (stk ++ [url])
              (if env.isProduction then
                 compileAsyncFunction ssrArgumentKeys (mkProdImpl tr.code mod.url tr.map)
               else runInThisContext (mkDevImpl ssrArgumentKeys tr.code tr.map))
              (ssrArgumentValues s0.heap.length url)
              (updateNode { s0 with heap := s0.heap ++ [default] } url
                (fun m => { m with ssrModule := some s0.heap.length })) with ⟨rv, s4⟩
          have hE3 : Evolves s0
              (updateNode { s0 with heap := s0.heap ++ [default] } url
                (fun m => { m with ssrModule := some s0.heap.length })) :=
            evolves_trans (evolves_alloc s0) (evolves_publish _ url _ hrec)
          have hE4 := ihV env url mod.file (stk ++ [url])
            (if env.isProduction then
               compileAsyncFunction ssrArgumentKeys (mkProdImpl tr.code mod.url tr.map)
             else runInThisContext (mkDevImpl ssrArgumentKeys tr.code tr.map))
            (ssrArgumentValues s0.heap.length url)
            (updateNode { s0 with heap := s0.heap ++ [default] } url
              (fun m => { m with ssrModule := some s0.heap.length }))
          rw [hInv] at hE4
          have hChain4 : Evolves s s4 :=
            evolves_trans hE0 (evolves_trans hE3 hE4)
          cases rv with
          | error e => exact hChain4
          | ok v =>
              dsimp only
              rcases hFin : finalizeSsrModule n s4 s0.heap.length with ⟨rf, s5⟩
              have hE5 := evolves_finalize n s4 s0.heap.length
              rw [hFin] at hE5
              have hChain5 : Evolves s s5 := evolves_trans hChain4 hE5
              cases rf with
              | error e => exact hChain5
              | ok v2 =>
                  refine evolves_freeze_new hChain5 ?_
                  exact hE0.1
        case none =>
          dsimp only
          rcases hT : transformRequest env s0 url with ⟨resOpt, s1⟩
          have hE1 : Evolves s0 s1 := by
            have h := evolves_transformRequest env s0 url
            rw [hT] at h; exact h
          dsimp only
          rcases resOpt with _ | result
          case none => exact evolves_trans hE0 hE1
          case some =>
          dsimp only
          have hrec : recSsrModule s1 url = none := by
            have h0 := recSsrModule_none_of_ensure hEns hmod
            have h := recSsrModule_transformRequest env s0 url url
            rw [hT] at h
            rw [h]; exact h0
          rcases hInv : invokeSsrInit n env url mod.file (stk ++ [url])
              (if env.isProduction then
                 compileAsyncFunction ssrArgumentKeys (mkProdImpl result.code mod.url result.map)
               else runInThisContext (mkDevImpl ssrArgumentKeys result.code result.map))
              (ssrArgumentValues s1.heap.length url)
              (updateNode { s1 with heap := s1.heap ++ [default] } url
                (fun m => { m with ssrModule := some s1.heap.length })) with ⟨rv, s4⟩
          have hE3 : Evolves s1
              (updateNode { s1 with heap := s1.heap ++ [default] } url
                (fun m => { m with ssrModule := some s1.heap.length })) :=
            evolves_trans (evolves_alloc s1) (evolves_publish _ url _ hrec)
          have hE4 := ihV env url mod.file (stk ++ [url])
            (if env.isProduction then
               compileAsyncFunction ssrArgumentKeys (mkProdImpl result.code mod.url result.map)
             else runInThisContext (mkDevImpl ssrArgumentKeys result.code result.map))
            (ssrArgumentValues s1.heap.length url)
            (updateNode { s1 with heap := s1.heap ++ [default] } url
              (fun m => { m with ssrModule := some s1.heap.length }))
          rw [hInv] at hE4
          have hChain4 : Evolves s s4 :=
            evolves_trans hE0 (evolves_trans hE1 (evolves_trans hE3 hE4))
          cases rv with
          | error e => exact hChain4
          | ok v =>
              dsimp only
              rcases hFin : finalizeSsrModule n s4 s1.heap.length with ⟨rf, s5⟩
              have hE5 := evolves_finalize n s4 s1.heap.length
              rw [hFin] at hE5
              have hChain5 : Evolves s s5 := evolves_trans hChain4 hE5
              cases rf with
              | error e => exact hChain5
              | ok v2 =>
                  refine evolves_freeze_new hChain5 ?_
                  exact le_trans hE0.1 hE1.1
      -- invokeSsrInit
      · intro env url file stk f args s
        rw [invokeSsrInit_succ]
        dsimp only
        split
        · rename_i x nsId heq
          rcases hR : runActions n env url file nsId stk f.body [] [] s with ⟨r, pd, b, s2⟩
          have hE := ihR env url file nsId stk f.body [] [] s
          rw [hR] at hE
          exact hE
        · exact evolves_refl s
      -- runActions
      · intro env url file ns stk acts pd b s
        rw [runActions_succ]
        dsimp only
        cases acts with
        | nil => exact evolves_refl s
        | cons act rest =>
            cases act with
            | importDep dep =>
                dsimp only
                rcases hM : ssrImport n env url file stk pd dep s with ⟨r, pd2, s2⟩
                have hE := ihM env url file stk pd dep s
                rw [hM] at hE
                cases r with
                | error e => exact hE
                | ok v => exact evolves_trans hE (ihR env url file ns stk rest pd2 _ s2)
            | dynImport dep =>
                dsimp only
                rcases hM : ssrImport n env url file stk pd
                    (if dep.take 1 = "." then posixResolve (posixDirname url) dep else dep) s
                  with ⟨r, pd2, s2⟩
                have hE := ihM env url file stk pd
                  (if dep.take 1 = "." then posixResolve (posixDirname url) dep else dep) s
                rw [hM] at hE
                cases r with
                | error e => exact hE
                | ok v => exact evolves_trans hE (ihR env url file ns stk rest pd2 b s2)
            | defineExport name v =>
                dsimp only
                rcases hD : nsDefineProp s ns ⟨name, .dataVal v, true⟩ with ⟨r, s2⟩
                have hE := evolves_nsDefineProp s ns ⟨name, .dataVal v, true⟩
                rw [hD] at hE
                cases r with
                | error e => exact hE
                | ok v2 => exact evolves_trans hE (ihR env url file ns stk rest pd b s2)
            | defineExportFrom name dep key =>
                dsimp only
                rcases hD : nsDefineProp s ns ⟨name, .getterTo ((alookup b dep).getD .undefV) key, true⟩ with ⟨r, s2⟩
                have hE := evolves_nsDefineProp s ns ⟨name, .getterTo ((alookup b dep).getD .undefV) key, true⟩
                rw [hD] at hE
                cases r with
                | error e => exact hE
                | ok v2 => exact evolves_trans hE (ihR env url file ns stk rest pd b s2)
            | setProp name v =>
                dsimp only
                exact evolves_trans (evolves_nsAssign s ns name v)
                  (ihR env url file ns stk rest pd b (nsAssign s ns name v))
            | exportAllOf dep =>
                dsimp only
                rcases hX : ssrExportAll s ns ((alookup b dep).getD .undefV) with ⟨r, s2⟩
                have hE := evolves_ssrExportAll s ns ((alookup b dep).getD .undefV)
                rw [hX] at hE
                cases r with
                | error e => exact hE
                | ok v2 => exact evolves_trans hE (ihR env url file ns stk rest pd b s2)
            | defineEsModule =>
                dsimp only
                rcases hD : nsDefineProp s ns ⟨"__esModule", .dataVal (.boolV true), false⟩ with ⟨r, s2⟩
                have hE := evolves_nsDefineProp s ns ⟨"__esModule", .dataVal (.boolV true), false⟩
                rw [hD] at hE
                cases r with
                | error e => exact hE
                | ok v2 => exact evolves_trans hE (ihR env url file ns stk rest pd b s2)
            | throwErr msg => exact evolves_refl s
      -- ssrImport
      · intro env url file stk pd dep s
        rw [ssrImport_succ]
        dsimp only
        split
        · rcases hN : nodeRequire env dep file (mkResolveOptions env) s with e | v
          · exact evolves_refl s
          · exact evolves_refl s
        · split
          · exact evolves_refl s
          · have hE1 : Evolves s
                (if (pd ++ [unwrapId dep]).length = 1 then
                  { s with pendingImports := aset s.pendingImports url (pd ++ [unwrapId dep]) }
                 else s) := by
              split
              · exact evolves_of_parts rfl rfl rfl rfl
              · exact evolves_refl s
            rcases hL : ssrLoadModule n env (unwrapId dep) stk
                (if (pd ++ [unwrapId dep]).length = 1 then
                  { s with pendingImports := aset s.pendingImports url (pd ++ [unwrapId dep]) }
                 else s) with ⟨r, s2⟩
            have hE2 := ihL env (unwrapId dep) stk
              (if (pd ++ [unwrapId dep]).length = 1 then
                { s with pendingImports := aset s.pendingImports url (pd ++ [unwrapId dep]) }
               else s)
            rw [hL] at hE2
            have hE12 : Evolves s s2 := evolves_trans hE1 hE2
            cases r with
            | error e => exact hE12
            | ok v =>
                dsimp only
                by_cases hone : (pd ++ [unwrapId dep]).length = 1
                · simp only [if_pos hone]
                  exact evolves_trans hE12 (evolves_of_parts rfl rfl rfl rfl)
                · simp only [if_neg hone]
                  exact hE12

end ViteSSR

namespace ViteSSR

theorem alookup_ensure_self {env : Env} {s : LoaderState} {url : String}
    {mod : ModuleNode} {s0 : LoaderState}
    (h : ensureEntryFromUrl env s url = (mod, s0)) :
    alookup s0.moduleGraph url = some mod := by
  unfold ensureEntryFromUrl at h
  rcases hl : alookup s.moduleGraph url with _ | m
  · rw [hl] at h
    simp only at h
    obtain ⟨h1, h2⟩ := Prod.mk.injEq .. ▸ h
    subst h2
    simp only
    rw [alookup_append, hl]
    simpa [alookup] using h1
  · rw [hl] at h
    simp only at h
    obtain ⟨h1, h2⟩ := Prod.mk.injEq .. ▸ h
    subst h2
    rw [hl, h1]

theorem mod_ssrModule_eq {env : Env} {s : LoaderState} {url : String}
    {mod : ModuleNode} {s0 : LoaderState}
    (h : ensureEntryFromUrl env s url = (mod, s0)) :
    mod.ssrModule = recSsrModule s url := by
  unfold ensureEntryFromUrl at h
  rcases hl : alookup s.moduleGraph url with _ | m
  · rw [hl] at h
    simp only at h
    obtain ⟨h1, h2⟩ := Prod.mk.injEq .. ▸ h
    unfold recSsrModule
    rw [hl, ← h1]
    rfl
  · rw [hl] at h
    simp only at h
    obtain ⟨h1, h2⟩ := Prod.mk.injEq .. ▸ h
    unfold recSsrModule
    rw [hl, ← h1]
    rfl

theorem lookup_some_after_transform {env : Env} {s : LoaderState} {url : String}
    {m : ModuleNode} (h : alookup s.moduleGraph url = some m) :
    ∃ m2, alookup (transformRequest env s url).2.moduleGraph url = some m2 ∧
      m2.ssrModule = m.ssrModule := by
  unfold transformRequest
  rcases env.transforms url with _ | r
  · exact ⟨m, by simpa using h, rfl⟩
  · refine ⟨{ m with ssrTransformResult := some r }, ?_, rfl⟩
    simp only [updateNode]
    rw [alookup_aupdate_self, h]
    rfl

end ViteSSR

namespace ViteSSR


/-- An instantiation that found no published instance and succeeded went
through the whole fresh path: the returned value is the stub allocated at
the old end of the heap, that same object is frozen at completion and
published on the record, and the pending table is restored. -/
theorem freshInstantiateSpec (n : Nat) (env : Env) (url : String) (stk : List String)
    {s1 : LoaderState} {v : Value} {s2 : LoaderState}
    (hfresh : recSsrModule s1 url = none)
    (hok : instantiateModule n env url stk s1 = (.ok v, s2)) :
    v = .nsRef s1.heap.length ∧
    s1.heap.length < s2.heap.length ∧
    (s2.heap.getD s1.heap.length default).frozen = true ∧
    recSsrModule s2 url = some s1.heap.length ∧
    s2.pendingModules = s1.pendingModules := by
  cases n with
  | zero =>
      rw [instantiateModule_zero] at hok
      simp at hok
  | succ n =>
    obtain ⟨eL, eI, eV, eR, eM⟩ := evolves_interp n
    rw [instantiateModule_succ] at hok
    try dsimp only at hok
    rcases hEns : ensureEntryFromUrl env s1 url with ⟨mod, s0⟩
    rw [hEns] at hok
    try dsimp only at hok
    have hmodeq := mod_ssrModule_eq hEns
    rw [hfresh] at hmodeq
    rw [hmodeq] at hok
    try dsimp only at hok
    have hheap0 : s0.heap = s1.heap := by
      have h := heap_ensureEntry env s1 url
      rw [hEns] at h; exact h
    have hpm0 : s0.pendingModules = s1.pendingModules := by
      have h := pendingModules_ensureEntry env s1 url
      rw [hEns] at h; exact h
    have hlook0 : alookup s0.moduleGraph url = some mod := alookup_ensure_self hEns
    rcases hTR : mod.ssrTransformResult with _ | tr
    case none =>
      rw [hTR] at hok
      try dsimp only at hok
      rcases hT : transformRequest env s0 url with ⟨resOpt, sT⟩
      rw [hT] at hok
      try dsimp only at hok
      rcases resOpt with _ | result
      case none => simp at hok
      case some =>
      try dsimp only at hok
      have hheapT : sT.heap = s0.heap := by
        have h := heap_transformRequest env s0 url
        rw [hT] at h; exact h
      have hpmT : sT.pendingModules = s0.pendingModules := by
        have h := pendingModules_transformRequest env s0 url
        rw [hT] at h; exact h
      obtain ⟨m2, hlookT, hm2⟩ := @lookup_some_after_transform env s0 url mod hlook0
      rw [hT] at hlookT
      rcases hInv : invokeSsrInit n env url mod.file (stk ++ [url])
          (if env.isProduction then
             compileAsyncFunction ssrArgumentKeys (mkProdImpl result.code mod.url result.map)
           else runInThisContext (mkDevImpl ssrArgumentKeys result.code result.map))
          (ssrArgumentValues sT.heap.length url)
          (updateNode { sT with heap := sT.heap ++ [default] } url
            (fun m => { m with ssrModule := some sT.heap.length })) with ⟨rv, s4⟩
      rw [hInv] at hok
      cases rv with
      | error e => simp at hok
      | ok u =>
          try dsimp only at hok
          rcases hFin : finalizeSsrModule n s4 sT.heap.length with ⟨rf, s5⟩
          rw [hFin] at hok
          try dsimp only at hok
          cases rf with
          | error e => simp at hok
          | ok u2 =>
              try dsimp only at hok
              obtain ⟨h1, hs2⟩ := Prod.mk.injEq .. ▸ hok
              have hv : Value.nsRef sT.heap.length = v := by injection h1
              have hEvA := eV env url mod.file (stk ++ [url])
                (if env.isProduction then
                   compileAsyncFunction ssrArgumentKeys (mkProdImpl result.code mod.url result.map)
                 else runInThisContext (mkDevImpl ssrArgumentKeys result.code result.map))
                (ssrArgumentValues sT.heap.length url)
                (updateNode { sT with heap := sT.heap ++ [default] } url
                  (fun m => { m with ssrModule := some sT.heap.length }))
              rw [hInv] at hEvA
              have hEv5 : Evolves s4 s5 := by
                have h := evolves_finalize n s4 sT.heap.length
                rw [hFin] at h; exact h
              have hST1 : sT.heap.length = s1.heap.length := by rw [hheapT, hheap0]
              have hlenA : sT.heap.length + 1 ≤ s4.heap.length := by
                have h := hEvA.1
                simpa [updateNode] using h
              have hlen5 : s4.heap.length ≤ s5.heap.length := hEv5.1
              have hlt5 : sT.heap.length < s5.heap.length := by omega
              refine ⟨by rw [← hv, hST1], ?_, ?_, ?_, ?_⟩
              · rw [← hs2, ← hST1]
                unfold freezeNs
                simp only [List.length_set]
                omega
              · rw [← hs2, ← hST1]
                unfold freezeNs
                simp only
                rw [getD_set_self _ _ _ hlt5]
              · have recA : recSsrModule
                    (updateNode { sT with heap := sT.heap ++ [default] } url
                      (fun m => { m with ssrModule := some sT.heap.length })) url =
                    some sT.heap.length := by
                  unfold recSsrModule updateNode
                  simp only
                  rw [alookup_aupdate_self]
                  rw [hlookT]
                  rfl
                have rec4 := hEvA.2.2.2.1 url sT.heap.length recA
                have rec5 := hEv5.2.2.2.1 url sT.heap.length rec4
                rw [← hs2, ← hST1]
                exact rec5
              · have p4 : s4.pendingModules =
                    (updateNode { sT with heap := sT.heap ++ [default] } url
                      (fun m => { m with ssrModule := some sT.heap.length })).pendingModules :=
                  hEvA.2.1
                have p5 : s5.pendingModules = s4.pendingModules := hEv5.2.1
                rw [← hs2]
                show s5.pendingModules = s1.pendingModules
                rw [p5, p4]
                show sT.pendingModules = s1.pendingModules
                rw [hpmT, hpm0]
    case some =>
      rw [hTR] at hok
      try dsimp only at hok
      rcases hInv : invokeSsrInit n env url mod.file (stk ++ [url])
          (if env.isProduction then
             compileAsyncFunction ssrArgumentKeys (mkProdImpl tr.code mod.url tr.map)
           else runInThisContext (mkDevImpl ssrArgumentKeys tr.code tr.map))
          (ssrArgumentValues s0.heap.length url)
          (updateNode { s0 with heap := s0.heap ++ [default] } url
            (fun m => { m with ssrModule := some s0.heap.length })) with ⟨rv, s4⟩
      rw [hInv] at hok
      cases rv with
      | error e => simp at hok
      | ok u =>
          try dsimp only at hok
          rcases hFin : finalizeSsrModule n s4 s0.heap.length with ⟨rf, s5⟩
          rw [hFin] at hok
          try dsimp only at hok
          cases rf with
          | error e => simp at hok
          | ok u2 =>
              try dsimp only at hok
              obtain ⟨h1, hs2⟩ := Prod.mk.injEq .. ▸ hok
              have hv : Value.nsRef s0.heap.length = v := by injection h1
              have hEvA := eV env url mod.file (stk ++ [url])
                (if env.isProduction then
                   compileAsyncFunction ssrArgumentKeys (mkProdImpl tr.code mod.url tr.map)
                 else runInThisContext (mkDevImpl ssrArgumentKeys tr.code tr.map))
                (ssrArgumentValues s0.heap.length url)
                (updateNode { s0 with heap := s0.heap ++ [default] } url
                  (fun m => { m with ssrModule := some s0.heap.length }))
              rw [hInv] at hEvA
              have hEv5 : Evolves s4 s5 := by
                have h := evolves_finalize n s4 s0.heap.length
                rw [hFin] at h; exact h
              have hST1 : s0.heap.length = s1.heap.length := by rw [hheap0]
              have hlenA : s0.heap.length + 1 ≤ s4.heap.length := by
                have h := hEvA.1
                simpa [updateNode] using h
              have hlen5 : s4.heap.length ≤ s5.heap.length := hEv5.1
              have hlt5 : s0.heap.length < s5.heap.length := by omega
              refine ⟨by rw [← hv, hST1], ?_, ?_, ?_, ?_⟩
              · rw [← hs2, ← hST1]
                unfold freezeNs
                simp only [List.length_set]
                omega
              · rw [← hs2, ← hST1]
                unfold freezeNs
                simp only
                rw [getD_set_self _ _ _ hlt5]
              · have recA : recSsrModule
                    (updateNode { s0 with heap := s0.heap ++ [default] } url
                      (fun m => { m with ssrModule := some s0.heap.length })) url =
                    some s0.heap.length := by
                  unfold recSsrModule updateNode
                  simp only
                  rw [alookup_aupdate_self]
                  rw [hlook0]
                  rfl
                have rec4 := hEvA.2.2.2.1 url s0.heap.length recA
                have rec5 := hEv5.2.2.2.1 url s0.heap.length rec4
                rw [← hs2, ← hST1]
                exact rec5
              · have p4 : s4.pendingModules =
                    (updateNode { s0 with heap := s0.heap ++ [default] } url
                      (fun m => { m with ssrModule := some s0.heap.length })).pendingModules :=
                  hEvA.2.1
                have p5 : s5.pendingModules = s4.pendingModules := hEv5.2.1
                rw [← hs2]
                show s5.pendingModules = s1.pendingModules
                rw [p5, p4]
                show s0.pendingModules = s1.pendingModules
                rw [hpm0]

end ViteSSR

namespace ViteSSR

/-- A successful `ssrLoadModule` of a URL with no published instance runs
one full fresh instantiation: it returns the namespace allocated at the
old end of the heap, now frozen and published on the record; the pending
table is restored; and no promise for the URL was pending at entry. -/
theorem freshLoadSpec (n : Nat) (env : Env) (url : String) (stk : List String)
    {s : LoaderState} {v : Value} {s' : LoaderState}
    (hfresh : recSsrModule s (unwrapId url) = none)
    (hok : ssrLoadModule n env url stk s = (.ok v, s')) :
    v = .nsRef s.heap.length ∧
    s.heap.length < s'.heap.length ∧
    (s'.heap.getD s.heap.length default).frozen = true ∧
    recSsrModule s' (unwrapId url) = some s.heap.length ∧
    s'.pendingModules = s.pendingModules ∧
    selem s.pendingModules (unwrapId url) = false := by
  cases n with
  | zero =>
      rw [ssrLoadModule_zero] at hok
      simp at hok
  | succ n =>
    rw [ssrLoadModule_succ] at hok
    dsimp only at hok
    split at hok
    · simp at hok
    · next hp =>
      rcases hI : instantiateModule n env (unwrapId url) stk
          { s with pendingModules := unwrapId url :: s.pendingModules } with ⟨r, s2⟩
      rw [hI] at hok
      cases r with
      | error e => simp at hok
      | ok u =>
          dsimp only at hok
          obtain ⟨h1, h2⟩ := Prod.mk.injEq .. ▸ hok
          have hv : u = v := by injection h1
          have hfresh1 : recSsrModule
              { s with pendingModules := unwrapId url :: s.pendingModules }
              (unwrapId url) = none := hfresh
          obtain ⟨hv2, hlen, hfz, hrec, hpm⟩ :=
            freshInstantiateSpec n env (unwrapId url) stk hfresh1 hI
          refine ⟨?_, ?_, ?_, ?_, ?_, ?_⟩
          · rw [← hv]; exact hv2
          · rw [← h2]; exact hlen
          · rw [← h2]; exact hfz
          · rw [← h2]; exact hrec
          · rw [← h2]
            show serase s2.pendingModules (unwrapId url) = s.pendingModules
            rw [hpm]
            exact serase_cons_self s.pendingModules (unwrapId url)
          · simpa using hp

end ViteSSR

namespace ViteSSR

/-- Mutation primitives on a frozen namespace: `defineProperty` raises a
`TypeError` without mutating, assignment is a silent no-op, `delete`
never mutates. -/
theorem nsDefineProp_frozen {s : LoaderState} {i : Nat} (p : NsProp)
    (h : (s.heap.getD i default).frozen = true) :
    nsDefineProp s i p = (.error .typeError, s) := by
  unfold nsDefineProp
  dsimp only
  rw [if_pos h]

theorem nsAssign_frozen {s : LoaderState} {i : Nat} (k : String) (v : Value)
    (h : (s.heap.getD i default).frozen = true) :
    nsAssign s i k v = s := by
  unfold nsAssign
  dsimp only
  rw [if_pos h]

theorem nsDelete_frozen {s : LoaderState} {i : Nat} (k : String)
    (h : (s.heap.getD i default).frozen = true) :
    (nsDelete s i k).2 = s := by
  unfold nsDelete
  dsimp only
  rw [if_pos h]

/-- A second, sequential load of an un-invalidated URL whose record holds
a published instance takes the cached-instance early return inside
`instantiateModule`: it returns exactly that namespace object and leaves
the state — including the transform-invocation log — unchanged. -/
theorem cachedLoadSpec (m : Nat) (env : Env) (url : String) (stk : List String)
    {s : LoaderState} {i : Nat}
    (hpend : selem s.pendingModules (unwrapId url) = false)
    (hrec : recSsrModule s (unwrapId url) = some i) :
    ssrLoadModule (m + 2) env url stk s = (.ok (.nsRef i), s) := by
  obtain ⟨node, hnode, hni⟩ : ∃ node,
      alookup s.moduleGraph (unwrapId url) = some node ∧ node.ssrModule = some i := by
    unfold recSsrModule at hrec
    rcases hl : alookup s.moduleGraph (unwrapId url) with _ | m2
    · rw [hl] at hrec; cases hrec
    · rw [hl] at hrec; exact ⟨m2, rfl, by simpa using hrec⟩
  have hc : ¬ (selem s.pendingModules (unwrapId url) = true) := by simp [hpend]
  have hI : instantiateModule (m + 1) env (unwrapId url) stk
      { s with pendingModules := unwrapId url :: s.pendingModules } =
      (.ok (.nsRef i), { s with pendingModules := unwrapId url :: s.pendingModules }) := by
    rw [instantiateModule_succ]
    dsimp only
    unfold ensureEntryFromUrl
    dsimp only
    rw [hnode]
    dsimp only
    rw [hni]
  show ssrLoadModule (m + 1 + 1) env url stk s = (.ok (.nsRef i), s)
  rw [ssrLoadModule_succ]
  dsimp only
  rw [if_neg hc]
  rw [hI]
  dsimp only
  rw [serase_cons_self]

end ViteSSR


namespace ViteSSR

theorem loadSameTick_pending (n : Nat) (url : String) (s : CoordState) (p : Nat)
    (h : alookup s.pendingModules (unwrapId url) = some p) :
    loadSameTick n url s = (List.replicate n p, s) := by
  induction n with
  | zero => simp [loadSameTick]
  | succ n ih =>
      unfold loadSameTick ssrLoadModuleSyncPhase
      dsimp only
      rw [h]
      dsimp only
      rw [ih]
      simp [List.replicate_succ]

/-- C1: any number of same-tick `ssrLoadModule(url)` calls, issued before
any of them reaches a suspension point, all receive the one promise the
first call installed, and the instantiation engine is started exactly once
for the URL: the pending-entry check and install are part of the same
synchronous segment (lines 40–54 contain no `await`), so later same-tick
callers take the early return and resolve to the same shared result. -/
theorem claim1_same_tick_dedup (n : Nat) (url : String) (s : CoordState)
    (h : alookup s.pendingModules (unwrapId url) = none) :
    (loadSameTick (n + 1) url s).1 = List.replicate (n + 1) s.nextPromiseId ∧
    (loadSameTick (n + 1) url s).2.started = s.started ++ [unwrapId url] := by
  unfold loadSameTick ssrLoadModuleSyncPhase
  dsimp only
  rw [h]
  dsimp only
  have h2 : alookup
      ((unwrapId url, s.nextPromiseId) :: s.pendingModules) (unwrapId url) =
      some s.nextPromiseId := by
    simp [alookup]
  rw [loadSameTick_pending n url
    { pendingModules := (unwrapId url, s.nextPromiseId) :: s.pendingModules,
      nextPromiseId := s.nextPromiseId + 1,
      started := s.started ++ [unwrapId url] } s.nextPromiseId h2]
  simp [List.replicate_succ]

/-- Witness for C1 at a concrete input: three same-tick loads of `/a` from
the empty coordinator state share promise `0` and start the engine once. -/
theorem claim1_same_tick_dedup_witness :
    (loadSameTick 3 "/a" ⟨[], 0, []⟩).1 = List.replicate 3 0 ∧
    (loadSameTick 3 "/a" ⟨[], 0, []⟩).2.started = [] ++ [unwrapId "/a"] :=
  claim1_same_tick_dedup 2 "/a" ⟨[], 0, []⟩ rfl

/-- C9: the production executor (`new AsyncFunction` over the code plus an
appended `sourceURL` comment) and the development executor
(`vm.runInThisContext` over the code wrapped in an async function
expression) compile to the same callable unit — same formal parameters,
same executable body, the trailing comments being inert — so invoking
them with the same argument values from the same state yields identical
results: the same exports on the namespace and the same final state.  (The
equivalence of the two host compilers themselves is a host property,
modelled by both compilation functions denoting the
parameters-plus-body unit.) -/
theorem claim9_executor_equivalence (keys : List String) (code : List Action)
    (modUrl : String) (map : Option String) (fuel : Nat) (env : Env) (url : String)
    (file : Option String) (urlStack : List String) (args : List SsrArgVal)
    (s : LoaderState) :
    compileAsyncFunction keys (mkProdImpl code modUrl map) =
      runInThisContext (mkDevImpl keys code map) ∧
    invokeSsrInit fuel env url file urlStack
        (compileAsyncFunction keys (mkProdImpl code modUrl map)) args s =
      invokeSsrInit fuel env url file urlStack
        (runInThisContext (mkDevImpl keys code map)) args s :=
  ⟨rfl, rfl⟩

/-- C5: a module whose dependency list contains its own URL does *not*
resolve its self-import from its own stub: `pendingImports` has no entry
for the module at the moment of the check (the entry is installed only
after the check), so `ssrImport` re-enters `ssrLoadModule`, receives the
module's own in-flight promise, and awaits it — a circular wait that never
completes.  The load ends in `deadlock` with the stub published but never
frozen, contradicting the claim that the load terminates with the stub. -/
theorem claim5_self_import_deadlock :
    (ssrLoadModule 30 envSelf "/m" [] emptyState).1 = .error .deadlock ∧
    recSsrModule (ssrLoadModule 30 envSelf "/m" [] emptyState).2 "/m" = some 0 ∧
    ((ssrLoadModule 30 envSelf "/m" [] emptyState).2.heap.getD 0 default).frozen = false := by
  decide

/-- C3: when execution of `/f` throws, the coordinator's cleanup does run
— both tables end empty — but the stub published before execution stays
cached on the module record, so a second load of `/f` *succeeds*,
returning the partially-populated, unfrozen stub without re-invoking the
transform (the log still shows a single invocation): the retry is not
from scratch. -/
theorem claim3_failure_cleanup_stale_stub :
    (ssrLoadModule 20 envThrow "/f" [] emptyState).1 = .error (.execError "boom") ∧
    (ssrLoadModule 20 envThrow "/f" [] emptyState).2.pendingModules = [] ∧
    (ssrLoadModule 20 envThrow "/f" [] emptyState).2.pendingImports = [] ∧
    (ssrLoadModule 20 envThrow "/f" [] emptyState).2.transformCalls = ["/f"] ∧
    recSsrModule (ssrLoadModule 20 envThrow "/f" [] emptyState).2 "/f" = some 0 ∧
    (ssrLoadModule 20 envThrow "/f" []
        (ssrLoadModule 20 envThrow "/f" [] emptyState).2).1 = .ok (.nsRef 0) ∧
    (ssrLoadModule 20 envThrow "/f" []
        (ssrLoadModule 20 envThrow "/f" [] emptyState).2).2.transformCalls = ["/f"] ∧
    ((ssrLoadModule 20 envThrow "/f" []
        (ssrLoadModule 20 envThrow "/f" [] emptyState).2).2.heap.getD 0 default).frozen
      = false := by
  decide

/-- C2: mutual static imports `/a ↔ /b` (each the other's first import).
Loading `/a` terminates successfully: `/b`'s import of `/a` finds `/a`'s
pending-dependency entry (`/b`, which lies on the ancestor path) and skips
re-entry, resolving to `/a`'s stub.  Both namespaces end frozen with their
own exports (`a = 1` on `/a`, `b = 2` on `/b`), and `/b`'s re-export `ra`
is a late-binding accessor through `/a`'s namespace object that reads
`/a`'s final value once the cycle has resolved. -/
theorem claim2_mutual_cycle :
    (ssrLoadModule 16 (envAB (.intV 1) (.intV 2)) "/a" [] emptyState).1 = .ok (.nsRef 0) ∧
    ((ssrLoadModule 16 (envAB (.intV 1) (.intV 2)) "/a" [] emptyState).2.heap.getD 0 default).frozen = true ∧
    ((ssrLoadModule 16 (envAB (.intV 1) (.intV 2)) "/a" [] emptyState).2.heap.getD 1 default).frozen = true ∧
    propGet 5 (ssrLoadModule 16 (envAB (.intV 1) (.intV 2)) "/a" [] emptyState).2 (.nsRef 0) "a" = .intV 1 ∧
    propGet 5 (ssrLoadModule 16 (envAB (.intV 1) (.intV 2)) "/a" [] emptyState).2 (.nsRef 1) "b" = .intV 2 ∧
    propGet 5 (ssrLoadModule 16 (envAB (.intV 1) (.intV 2)) "/a" [] emptyState).2 (.nsRef 1) "ra" = .intV 1 ∧
    nsGetOwn (ssrLoadModule 16 (envAB (.intV 1) (.intV 2)) "/a" [] emptyState).2 1 "ra" =
      some ⟨"ra", .getterTo (.nsRef 0) "a", true⟩ ∧
    recSsrModule (ssrLoadModule 16 (envAB (.intV 1) (.intV 2)) "/a" [] emptyState).2 "/a" = some 0 ∧
    recSsrModule (ssrLoadModule 16 (envAB (.intV 1) (.intV 2)) "/a" [] emptyState).2 "/b" = some 1 := by
  decide

end ViteSSR

namespace ViteSSR

/-! ## Property-definition lemmas for the interop and export-all steps -/

theorem nsDefineProp_unfrozen {s : LoaderState} {i : Nat} (p : NsProp)
    (h : (s.heap.getD i default).frozen = false) :
    nsDefineProp s i p =
      (.ok (),
       { s with
         heap := s.heap.set i ({ s.heap.getD i default with props := propsSet (s.heap.getD i default).props p }) }) := by
  unfold nsDefineProp
  dsimp only
  rw [if_neg (by rw [h]; simp)]

theorem nsGetOwn_defineProp_self {s : LoaderState} {i : Nat} (p : NsProp)
    (h : (s.heap.getD i default).frozen = false) (hlen : i < s.heap.length) :
    nsGetOwn (nsDefineProp s i p).2 i p.name = some p := by
  rw [nsDefineProp_unfrozen p h]
  unfold nsGetOwn
  dsimp only
  rw [getD_set_self _ _ _ hlen]
  exact find?_propsSet_self _ p

theorem nsGetOwn_defineProp_ne {s : LoaderState} {i : Nat} (p : NsProp) (k : String)
    (h : (s.heap.getD i default).frozen = false) (hk : k ≠ p.name) :
    nsGetOwn (nsDefineProp s i p).2 i k = nsGetOwn s i k := by
  rw [nsDefineProp_unfrozen p h]
  unfold nsGetOwn
  dsimp only
  by_cases hlen : i < s.heap.length
  · rw [getD_set_self _ _ _ hlen]
    exact find?_propsSet_ne _ p k hk
  · rw [List.set_eq_of_length_le (by omega)]

theorem defineProp_frozen_flag {s : LoaderState} {i : Nat} (p : NsProp)
    (h : (s.heap.getD i default).frozen = false) :
    ((nsDefineProp s i p).2.heap.getD i default).frozen = false := by
  rw [nsDefineProp_unfrozen p h]
  dsimp only
  by_cases hlen : i < s.heap.length
  · rw [getD_set_self _ _ _ hlen]
    exact h
  · rw [List.set_eq_of_length_le (by omega)]
    exact h

theorem defineProp_heap_length {s : LoaderState} {i : Nat} (p : NsProp)
    (h : (s.heap.getD i default).frozen = false) :
    (nsDefineProp s i p).2.heap.length = s.heap.length := by
  rw [nsDefineProp_unfrozen p h]
  simp

/-- The behaviour of `exportAllKeys` over one pass of the key list: it
succeeds on an unfrozen target, never touches `default` or any unlisted
key, and leaves every listed key (but `default`) bound to the
late-binding accessor into the source module. -/
theorem exportAllKeys_spec (target : Nat) (src : Value) (keys : List String) :
    ∀ s : LoaderState, (s.heap.getD target default).frozen = false →
      target < s.heap.length →
      (exportAllKeys target src keys s).1 = .ok () ∧
      ((exportAllKeys target src keys s).2.heap.getD target default).frozen = false ∧
      (exportAllKeys target src keys s).2.heap.length = s.heap.length ∧
      (∀ k, k ∉ keys → nsGetOwn (exportAllKeys target src keys s).2 target k =
        nsGetOwn s target k) ∧
      nsGetOwn (exportAllKeys target src keys s).2 target "default" =
        nsGetOwn s target "default" ∧
      (∀ k, k ∈ keys → k ≠ "default" →
        nsGetOwn (exportAllKeys target src keys s).2 target k =
          some ⟨k, .getterTo src k, true⟩) := by
  induction keys with
  | nil =>
      intro s hfr hlen
      exact ⟨rfl, hfr, rfl, fun k _ => rfl, rfl, fun k hk => absurd hk (List.not_mem_nil k)⟩
  | cons k1 rest ih =>
      intro s hfr hlen
      unfold exportAllKeys
      by_cases hdef : k1 = "default"
      · rw [if_pos hdef]
        obtain ⟨h1, h2, h3, h4, h6, h5⟩ := ih s hfr hlen
        refine ⟨h1, h2, h3,
          fun k hk => h4 k (fun hmem => hk (List.mem_cons_of_mem _ hmem)), h6, ?_⟩
        intro k hk hkd
        rcases List.mem_cons.mp hk with hk1 | hkr
        · exact absurd (hk1.trans hdef) hkd
        · exact h5 k hkr hkd
      · rw [if_neg hdef]
        have hD := nsDefineProp_unfrozen ⟨k1, .getterTo src k1, true⟩ hfr
        rcases hE : nsDefineProp s target ⟨k1, .getterTo src k1, true⟩ with ⟨r1, sD⟩
        rw [hE] at hD
        obtain ⟨hr1, hsD⟩ := Prod.mk.injEq .. ▸ hD
        subst hr1
        dsimp only
        have hfrD : (sD.heap.getD target default).frozen = false := by
          have h := defineProp_frozen_flag ⟨k1, .getterTo src k1, true⟩ hfr
          rw [hE] at h; exact h
        have hlenD : target < sD.heap.length := by
          have h := defineProp_heap_length ⟨k1, .getterTo src k1, true⟩ hfr
          rw [hE] at h
          dsimp only at h
          omega
        obtain ⟨h1, h2, h3, h4, h6, h5⟩ := ih sD hfrD hlenD
        have hownD_self : nsGetOwn sD target k1 = some ⟨k1, .getterTo src k1, true⟩ := by
          have h := nsGetOwn_defineProp_self ⟨k1, .getterTo src k1, true⟩ hfr hlen
          rw [hE] at h; exact h
        have hownD_ne : ∀ k, k ≠ k1 → nsGetOwn sD target k = nsGetOwn s target k := by
          intro k hk
          have h := nsGetOwn_defineProp_ne ⟨k1, .getterTo src k1, true⟩ k hfr hk
          rw [hE] at h; exact h
        refine ⟨h1, h2, ?_, ?_, ?_, ?_⟩
        · rw [h3]
          have h := defineProp_heap_length ⟨k1, .getterTo src k1, true⟩ hfr
          rw [hE] at h; exact h
        · intro k hk
          have hk1 : k ≠ k1 := fun hh => hk (hh ▸ List.mem_cons_self k1 rest)
          have hkr : k ∉ rest := fun hh => hk (List.mem_cons_of_mem _ hh)
          rw [h4 k hkr, hownD_ne k hk1]
        · rw [h6, hownD_ne "default" (fun hh => hdef hh.symm)]
        · intro k hk hkd
          by_cases hkr : k ∈ rest
          · exact h5 k hkr hkd
          · have hk1 : k = k1 := by
              rcases List.mem_cons.mp hk with h | h
              · exact h
              · exact absurd h hkr
            subst hk1
            rw [h4 k hkr, hownD_self]

end ViteSSR

namespace ViteSSR

/-- C6: the post-execution interop step.  Generally: whenever the executed
module left `__esModule` falsy on an unfrozen namespace, the finalisation
defines `__esModule: true` and — if no own `default` property exists —
defines `default` as the namespace object itself (both non-enumerable).
Concretely: for `transform('/a.js') = {code: "export const x = 1", deps:
[]}` (whose transformed code sets `__esModule`, so the synthesis is
skipped), the load yields a namespace with `x === 1` and `default ===
undefined` (no own `default`). -/
theorem claim6_esmodule_interop :
    (∀ (n : Nat) (s : LoaderState) (i : Nat),
        truthy (propGet n s (.nsRef i) "__esModule") = false →
        (s.heap.getD i default).frozen = false →
        i < s.heap.length →
        (finalizeSsrModule n s i).1 = .ok () ∧
        nsGetOwn (finalizeSsrModule n s i).2 i "__esModule" =
          some ⟨"__esModule", .dataVal (.boolV true), false⟩ ∧
        (nsGetOwn s i "default" = none →
          nsGetOwn (finalizeSsrModule n s i).2 i "default" =
            some ⟨"default", .dataVal (.nsRef i), false⟩)) ∧
    ((ssrLoadModule 10 envConstX "/a.js" [] emptyState).1 = .ok (.nsRef 0) ∧
     propGet 5 (ssrLoadModule 10 envConstX "/a.js" [] emptyState).2 (.nsRef 0) "x" = .intV 1 ∧
     propGet 5 (ssrLoadModule 10 envConstX "/a.js" [] emptyState).2 (.nsRef 0) "default" = .undefV ∧
     nsGetOwn (ssrLoadModule 10 envConstX "/a.js" [] emptyState).2 0 "default" = none) := by
  constructor
  · intro n s i htr hfr hlen
    unfold finalizeSsrModule
    rw [if_neg (by rw [htr]; simp)]
    rcases hE : nsDefineProp s i ⟨"__esModule", .dataVal (.boolV true), false⟩ with ⟨r1, s1⟩
    have hD := nsDefineProp_unfrozen ⟨"__esModule", .dataVal (.boolV true), false⟩ hfr
    rw [hE] at hD
    obtain ⟨hr1, hs1⟩ := Prod.mk.injEq .. ▸ hD
    subst hr1
    dsimp only
    have hown1 : nsGetOwn s1 i "__esModule" =
        some ⟨"__esModule", .dataVal (.boolV true), false⟩ := by
      have h := nsGetOwn_defineProp_self ⟨"__esModule", .dataVal (.boolV true), false⟩ hfr hlen
      rw [hE] at h; exact h
    have hown1d : nsGetOwn s1 i "default" = nsGetOwn s i "default" := by
      have h := nsGetOwn_defineProp_ne ⟨"__esModule", .dataVal (.boolV true), false⟩
        "default" hfr (by decide)
      rw [hE] at h; exact h
    have hfr1 : (s1.heap.getD i default).frozen = false := by
      have h := defineProp_frozen_flag ⟨"__esModule", .dataVal (.boolV true), false⟩ hfr
      rw [hE] at h; exact h
    have hlen1 : i < s1.heap.length := by
      have h := defineProp_heap_length ⟨"__esModule", .dataVal (.boolV true), false⟩ hfr
      rw [hE] at h; dsimp only at h; omega
    by_cases hdef : (nsGetOwn s1 i "default").isSome
    · rw [if_pos hdef]
      refine ⟨rfl, hown1, ?_⟩
      intro hnone
      rw [hown1d, hnone] at hdef
      simp at hdef
    · rw [if_neg hdef]
      refine ⟨?_, ?_, ?_⟩
      · rw [nsDefineProp_unfrozen ⟨"default", .dataVal (.nsRef i), false⟩ hfr1]
      · have h := nsGetOwn_defineProp_ne ⟨"default", .dataVal (.nsRef i), false⟩
          "__esModule" hfr1 (by simp)
        rw [h, hown1]
      · intro hnone
        exact nsGetOwn_defineProp_self ⟨"default", .dataVal (.nsRef i), false⟩ hfr1 hlen1
  · exact ⟨by decide, by decide, by decide, by decide⟩

/-- Witness for C6 at a concrete input: finalising an unmarked, unfrozen
namespace (index 0 of a one-object heap) synthesizes `__esModule` and a
self-referential `default`. -/
theorem claim6_esmodule_interop_witness :
    (finalizeSsrModule 3 { emptyState with heap := [⟨[], false⟩] } 0).1 = .ok () ∧
    nsGetOwn (finalizeSsrModule 3 { emptyState with heap := [⟨[], false⟩] } 0).2 0 "__esModule" =
      some ⟨"__esModule", .dataVal (.boolV true), false⟩ ∧
    nsGetOwn (finalizeSsrModule 3 { emptyState with heap := [⟨[], false⟩] } 0).2 0 "default" =
      some ⟨"default", .dataVal (.nsRef 0), false⟩ := by
  obtain ⟨h1, h2, h3⟩ := claim6_esmodule_interop.1 3
    { emptyState with heap := [⟨[], false⟩] } 0 (by decide) (by decide) (by decide)
  exact ⟨h1, h2, h3 (by decide)⟩

/-- C7: `nodeRequire` resolves an external specifier, captures
`defaultExport = raw.__esModule ? raw.default : raw` once at require time,
and returns the read-through proxy: `default` answers with the captured
value, while every other property name reads the raw module's *current*
value at access time in whatever state the read happens (so later
mutations of the raw module remain visible — a proxy, not a copy). -/
theorem claim7_interop_proxy :
    (∀ (env : Env) (id : String) (importer : Option String) (opts : ResolveOptions)
        (s : LoaderState) (path : String) (r : Nat),
        env.resolveExternal id opts = some path →
        env.hostModules path = some r →
        nodeRequire env id importer opts s =
          .ok (.proxyV r (if truthy (rawGetIn s.rawHeap r "__esModule")
                          then rawGetIn s.rawHeap r "default" else .rawRef r))) ∧
    (∀ (s2 : LoaderState) (r : Nat) (d : Value) (k : String) (m : Nat),
        k ≠ "default" → propGet m s2 (.proxyV r d) k = rawGetIn s2.rawHeap r k) ∧
    (∀ (s2 : LoaderState) (r : Nat) (d : Value) (m : Nat),
        propGet m s2 (.proxyV r d) "default" = d) := by
  refine ⟨?_, ?_, ?_⟩
  · intro env id importer opts s path r hres hload
    unfold nodeRequire
    rw [hres]
    dsimp only
    rw [hload]
  · intro s2 r d k m hk
    unfold propGet
    rw [if_neg hk]
  · intro s2 r d m
    unfold propGet
    rw [if_pos rfl]

/-- Witness for C7 at a concrete input: requiring the CommonJS-style raw
module `{foo: 7}` yields a proxy whose `default` is the module itself and
whose `foo` reads through (and the ES-flavoured raw module at index 1
yields its captured `default`). -/
theorem claim7_interop_proxy_witness :
    nodeRequire envExt "pkg" none (mkResolveOptions envExt) rawState =
      .ok (.proxyV 0 (.rawRef 0)) ∧
    propGet 3 rawState (.proxyV 0 (.rawRef 0)) "foo" = .intV 7 ∧
    propGet 3 rawState (.proxyV 0 (.rawRef 0)) "default" = .rawRef 0 ∧
    nodeRequire envExt "es" none (mkResolveOptions envExt) rawState =
      .ok (.proxyV 1 (.intV 5)) := by
  refine ⟨?_, ?_, ?_, ?_⟩
  · exact claim7_interop_proxy.1 envExt "pkg" none (mkResolveOptions envExt) rawState
      "/node_modules/pkg/index.js" 0 rfl rfl
  · exact (claim7_interop_proxy.2.1 rawState 0 (.rawRef 0) "foo" 3 (by decide)).trans (by decide)
  · exact claim7_interop_proxy.2.2 rawState 0 (.rawRef 0) 3
  · exact claim7_interop_proxy.1 envExt "es" none (mkResolveOptions envExt) rawState
      "/node_modules/es/index.js" 1 rfl rfl

end ViteSSR


namespace ViteSSR

/-- C8: `ssrExportAll` over a resolved dependency namespace.  Generally:
on an unfrozen stub it succeeds, installs for every enumerable key of the
source except `default` an enumerable configurable accessor reading
through to the source's live value, leaves the target's `default` binding
exactly as it was, and such an accessor read at *any* state goes through
to the source's value at that state (late binding: reads reflect updates
made while the dependency is still mid-instantiation).  Concretely: `/a2`
declares `export * from '/b2'` where `/b2` exports `foo = 2` and a
default; `/a2`'s namespace exposes `foo === 2` through the accessor and
gains no `default` from `/b2`. -/
theorem claim8_export_all :
    (∀ (s : LoaderState) (t : Nat) (src : Value),
        (s.heap.getD t default).frozen = false →
        t < s.heap.length →
        (ssrExportAll s t src).1 = .ok () ∧
        (∀ k, k ∈ enumOwnKeys s src → k ≠ "default" →
          nsGetOwn (ssrExportAll s t src).2 t k = some ⟨k, .getterTo src k, true⟩) ∧
        nsGetOwn (ssrExportAll s t src).2 t "default" = nsGetOwn s t "default") ∧
    (∀ (s2 : LoaderState) (t : Nat) (src : Value) (k : String) (m : Nat),
        nsGetOwn s2 t k = some ⟨k, .getterTo src k, true⟩ →
        propGet (m + 1) s2 (.nsRef t) k = propGet m s2 src k) ∧
    ((ssrLoadModule 16 envExportAll "/a2" [] emptyState).1 = .ok (.nsRef 0) ∧
     propGet 5 (ssrLoadModule 16 envExportAll "/a2" [] emptyState).2 (.nsRef 0) "foo" = .intV 2 ∧
     nsGetOwn (ssrLoadModule 16 envExportAll "/a2" [] emptyState).2 0 "foo" =
       some ⟨"foo", .getterTo (.nsRef 1) "foo", true⟩ ∧
     nsGetOwn (ssrLoadModule 16 envExportAll "/a2" [] emptyState).2 0 "default" = none ∧
     nsGetOwn (ssrLoadModule 16 envExportAll "/a2" [] emptyState).2 1 "default" =
       some ⟨"default", .dataVal (.intV 9), true⟩) := by
  refine ⟨?_, ?_, ?_⟩
  · intro s t src hfr hlen
    obtain ⟨h1, _, _, _, h6, h5⟩ := exportAllKeys_spec t src (enumOwnKeys s src) s hfr hlen
    exact ⟨h1, h5, h6⟩
  · intro s2 t src k m h
    conv_lhs => unfold propGet
    rw [h]
  · exact ⟨by decide, by decide, by decide, by decide, by decide⟩

/-- Witness for C8 at a concrete input: applying `ssrExportAll` to an
unfrozen empty target (index 0) from the raw CommonJS module `{foo: 7}`
installs a read-through accessor for `foo` and leaves `default` absent. -/
theorem claim8_export_all_witness :
    (ssrExportAll { rawState with heap := [⟨[], false⟩] } 0 (.rawRef 0)).1 = .ok () ∧
    nsGetOwn (ssrExportAll { rawState with heap := [⟨[], false⟩] } 0 (.rawRef 0)).2 0 "foo" =
      some ⟨"foo", .getterTo (.rawRef 0) "foo", true⟩ ∧
    nsGetOwn (ssrExportAll { rawState with heap := [⟨[], false⟩] } 0 (.rawRef 0)).2 0 "default" =
      nsGetOwn { rawState with heap := [⟨[], false⟩] } 0 "default" ∧
    propGet 4 (ssrExportAll { rawState with heap := [⟨[], false⟩] } 0 (.rawRef 0)).2
        (.nsRef 0) "foo" =
      propGet 3 (ssrExportAll { rawState with heap := [⟨[], false⟩] } 0 (.rawRef 0)).2
        (.rawRef 0) "foo" := by
  obtain ⟨h1, h2, h3⟩ := claim8_export_all.1 { rawState with heap := [⟨[], false⟩] } 0
    (.rawRef 0) (by decide) (by decide)
  refine ⟨h1, h2 "foo" (by decide) (by decide), h3, ?_⟩
  exact claim8_export_all.2.1 _ 0 (.rawRef 0) "foo" 3 (h2 "foo" (by decide) (by decide))

end ViteSSR

namespace ViteSSR

theorem recSsrModule_invalidate (s : LoaderState) (u : String) :
    recSsrModule (invalidateModule s u) u = none := by
  unfold invalidateModule updateNode recSsrModule
  simp only
  rw [alookup_aupdate_self]
  rcases alookup s.moduleGraph u with _ | m <;> rfl

/-- Counterexample to C4 as stated: after a load of `/f` fails during
execution, a second load of `/f` *successfully completes* — it resolves
with the leftover stub — yet the returned namespace is not frozen, and
adding an export to it succeeds and changes the export set (from one own
property to two). -/
theorem claim4_counterexample :
    (ssrLoadModule 20 envThrow "/f" []
        (ssrLoadModule 20 envThrow "/f" [] emptyState).2).1 = .ok (.nsRef 0) ∧
    (((ssrLoadModule 20 envThrow "/f" []
        (ssrLoadModule 20 envThrow "/f" [] emptyState).2).2.heap.getD 0 default).frozen
      = false) ∧
    (nsDefineProp (ssrLoadModule 20 envThrow "/f" []
        (ssrLoadModule 20 envThrow "/f" [] emptyState).2).2 0
        ⟨"extra", .dataVal (.intV 5), true⟩).1 = .ok () ∧
    ((ssrLoadModule 20 envThrow "/f" []
        (ssrLoadModule 20 envThrow "/f" [] emptyState).2).2.heap.getD 0 default).props.length
      = 1 ∧
    (((nsDefineProp (ssrLoadModule 20 envThrow "/f" []
        (ssrLoadModule 20 envThrow "/f" [] emptyState).2).2 0
        ⟨"extra", .dataVal (.intV 5), true⟩).2.heap.getD 0 default).props.length) = 2 := by
  decide

/-- C4 (amended): for every successful load whose URL had no published
instance — i.e. every load that actually runs an instantiation to
completion, which excludes only the return of a stub left over from a
previously failed instantiation (see the counterexample) — the returned
namespace object is frozen: assignment is a silent no-op, `defineProperty`
fails with a `TypeError`, `delete` does not mutate, so the export set is
identical before and after any such attempt; the frozen object is never
mutated again by later loader activity; and re-instantiation after
external invalidation produces and caches a *new* object (a strictly
larger heap index) while the old frozen object stays byte-for-byte
unchanged. -/
theorem claim4_freeze_invariant (n : Nat) (env : Env) (url : String) (stk : List String)
    {s : LoaderState} {v : Value} {s' : LoaderState}
    (hfresh : recSsrModule s (unwrapId url) = none)
    (hok : ssrLoadModule n env url stk s = (.ok v, s')) :
    v = .nsRef s.heap.length ∧
    (s'.heap.getD s.heap.length default).frozen = true ∧
    (∀ k w, nsAssign s' s.heap.length k w = s') ∧
    (∀ p, nsDefineProp s' s.heap.length p = (.error .typeError, s')) ∧
    (∀ k, (nsDelete s' s.heap.length k).2 = s') ∧
    (∀ (n2 : Nat) (v2 : Value) (s'' : LoaderState),
        ssrLoadModule n2 env url stk (invalidateModule s' (unwrapId url)) = (.ok v2, s'') →
        v2 = .nsRef s'.heap.length ∧
        s.heap.length < s'.heap.length ∧
        s''.heap.getD s.heap.length default = s'.heap.getD s.heap.length default) := by
  obtain ⟨hv, hlt, hfz, hrec, hpm, hpend⟩ := freshLoadSpec n env url stk hfresh hok
  refine ⟨hv, hfz, fun k w => nsAssign_frozen k w hfz,
    fun p => nsDefineProp_frozen p hfz, fun k => nsDelete_frozen k hfz, ?_⟩
  intro n2 v2 s'' h2
  have hfresh2 : recSsrModule (invalidateModule s' (unwrapId url)) (unwrapId url) = none :=
    recSsrModule_invalidate s' (unwrapId url)
  obtain ⟨hv2, _, _, _, _, _⟩ := freshLoadSpec n2 env url stk hfresh2 h2
  refine ⟨hv2, hlt, ?_⟩
  obtain ⟨eL, _, _, _, _⟩ := evolves_interp n2
  have hEv := eL env url stk (invalidateModule s' (unwrapId url))
  rw [h2] at hEv
  have hfz2 : ((invalidateModule s' (unwrapId url)).heap.getD s.heap.length default).frozen
      = true := hfz
  have hlen2 : s.heap.length < (invalidateModule s' (unwrapId url)).heap.length := hlt
  exact hEv.2.2.2.2 s.heap.length hlen2 |>.2 hfz2

/-- Witness for C4 (amended) at a concrete input: loading `/a.js` in
`envConstX` from the empty state. -/
theorem claim4_freeze_invariant_witness :
    ((.nsRef 0 : Value) = .nsRef emptyState.heap.length ∧
     (((ssrLoadModule 10 envConstX "/a.js" [] emptyState).2).heap.getD
        emptyState.heap.length default).frozen = true ∧
     (∀ k w, nsAssign (ssrLoadModule 10 envConstX "/a.js" [] emptyState).2
        emptyState.heap.length k w = (ssrLoadModule 10 envConstX "/a.js" [] emptyState).2) ∧
     (∀ p, nsDefineProp (ssrLoadModule 10 envConstX "/a.js" [] emptyState).2
        emptyState.heap.length p =
        (.error .typeError, (ssrLoadModule 10 envConstX "/a.js" [] emptyState).2)) ∧
     (∀ k, (nsDelete (ssrLoadModule 10 envConstX "/a.js" [] emptyState).2
        emptyState.heap.length k).2 = (ssrLoadModule 10 envConstX "/a.js" [] emptyState).2) ∧
     (∀ (n2 : Nat) (v2 : Value) (s'' : LoaderState),
        ssrLoadModule n2 envConstX "/a.js" []
            (invalidateModule (ssrLoadModule 10 envConstX "/a.js" [] emptyState).2
              (unwrapId "/a.js")) = (.ok v2, s'') →
        v2 = .nsRef (ssrLoadModule 10 envConstX "/a.js" [] emptyState).2.heap.length ∧
        emptyState.heap.length <
          (ssrLoadModule 10 envConstX "/a.js" [] emptyState).2.heap.length ∧
        s''.heap.getD emptyState.heap.length default =
          (ssrLoadModule 10 envConstX "/a.js" [] emptyState).2.heap.getD
            emptyState.heap.length default)) :=
  @claim4_freeze_invariant 10 envConstX "/a.js" [] emptyState (.nsRef 0)
    (ssrLoadModule 10 envConstX "/a.js" [] emptyState).2 (by decide) (by decide)

/-- C10: the identity chain of a fresh successful load — the namespace
allocated as the stub (at the pre-load end of the heap), the object frozen
at completion, the object published on the module record, and the value
returned to the caller are one and the same heap cell; hence a cyclic
importer that captured the stub holds the completed frozen namespace.
And a second sequential load of the same un-invalidated URL returns that
identical object through the cached-instance early return, changing
nothing — in particular not re-invoking the transform. -/
theorem claim10_identity_chain (n : Nat) (env : Env) (url : String) (stk : List String)
    {s : LoaderState} {v : Value} {s' : LoaderState}
    (hfresh : recSsrModule s (unwrapId url) = none)
    (hok : ssrLoadModule n env url stk s = (.ok v, s')) :
    v = .nsRef s.heap.length ∧
    recSsrModule s' (unwrapId url) = some s.heap.length ∧
    (s'.heap.getD s.heap.length default).frozen = true ∧
    (∀ m : Nat, ssrLoadModule (m + 2) env url stk s' = (.ok (.nsRef s.heap.length), s')) := by
  obtain ⟨hv, hlt, hfz, hrec, hpm, hpend⟩ := freshLoadSpec n env url stk hfresh hok
  refine ⟨hv, hrec, hfz, ?_⟩
  intro m
  have hpend2 : selem s'.pendingModules (unwrapId url) = false := by
    rw [hpm]; exact hpend
  exact cachedLoadSpec m env url stk hpend2 hrec

/-- Witness for C10 at a concrete input: loading `/a.js` in `envConstX`
from the empty state, then loading it again. -/
theorem claim10_identity_chain_witness :
    ((.nsRef 0 : Value) = .nsRef emptyState.heap.length ∧
     recSsrModule (ssrLoadModule 10 envConstX "/a.js" [] emptyState).2 (unwrapId "/a.js") =
       some emptyState.heap.length ∧
     ((ssrLoadModule 10 envConstX "/a.js" [] emptyState).2.heap.getD
        emptyState.heap.length default).frozen = true ∧
     (∀ m : Nat, ssrLoadModule (m + 2) envConstX "/a.js" []
          (ssrLoadModule 10 envConstX "/a.js" [] emptyState).2 =
        (.ok (.nsRef emptyState.heap.length),
         (ssrLoadModule 10 envConstX "/a.js" [] emptyState).2))) :=
  @claim10_identity_chain 10 envConstX "/a.js" [] emptyState (.nsRef 0)
    (ssrLoadModule 10 envConstX "/a.js" [] emptyState).2 (by decide) (by decide)

end ViteSSR
